import Mathlib

/-!
Verification of the bzrtp natural-language specification against a shallow
embedding of the sources (the state machine file and the packet codec file).
Byte strings are modelled as lists of naturals; the cryptographic primitives
(hash, HMAC, cipher, DH), which the engine reaches only through function
pointers or the external bctoolbox library, are parameters of the embedded
functions.
-/

namespace Bzrtp

/-- Byte strings are lists of naturals; every byte the C code stores lies below 256. -/
abbrev Bytes := List Nat

/-- Big-endian reading of two bytes, as in the C idiom (hi << 8) | lo. -/
def be16 (hi lo : Nat) : Nat := 256 * hi + lo

/-- Big-endian reading of four bytes. -/
def be32 (b0 b1 b2 b3 : Nat) : Nat := 16777216 * b0 + 65536 * b1 + 256 * b2 + b3

/-- Big-endian encoding of a 32-bit value, written byte by byte with (n >> k) & 0xFF. -/
def natToBe32 (n : Nat) : Bytes :=
  [n / 16777216 % 256, n / 65536 % 256, n / 256 % 256, n % 256]

/-- Value of a byte string read as a big-endian unsigned integer (network byte order). -/
def beVal (b : Bytes) : Nat := b.foldl (fun acc x => 256 * acc + x) 0

/-- Result of memcmp(a, b, n) < 0 on two byte arrays of the same length n:
lexicographic strict comparison byte by byte. -/
def memcmpLt : Bytes → Bytes → Bool
  | a :: as, b :: bs => if a < b then true else if b < a then false else memcmpLt as bs
  | _, _ => false

theorem beVal_foldl (l : Bytes) (acc : Nat) :
    l.foldl (fun a x => 256 * a + x) acc = acc * 256 ^ l.length + beVal l := by
  induction l generalizing acc with
  | nil => simp [beVal]
  | cons x xs ih =>
      simp only [List.foldl_cons, List.length_cons, beVal]
      rw [ih (256 * acc + x), ih (256 * 0 + x)]
      ring

theorem beVal_cons (a : Nat) (l : Bytes) :
    beVal (a :: l) = a * 256 ^ l.length + beVal l := by
  simp only [beVal, List.foldl_cons]
  rw [beVal_foldl l (256 * 0 + a)]
  simp [beVal]

theorem beVal_lt_of_bytes (l : Bytes) (h : ∀ x ∈ l, x < 256) :
    beVal l < 256 ^ l.length := by
  induction l with
  | nil => simp [beVal]
  | cons a as ih =>
      have ha : a < 256 := h a (by simp)
      have has : ∀ x ∈ as, x < 256 := fun x hx => h x (by simp [hx])
      have h1 := ih has
      rw [beVal_cons]
      have h2 : a * 256 ^ as.length + beVal as < (a + 1) * 256 ^ as.length := by
        have := h1
        nlinarith [pow_pos (by norm_num : (0:ℕ) < 256) as.length]
      have h3 : (a + 1) * 256 ^ as.length ≤ 256 * 256 ^ as.length := by
        have : a + 1 ≤ 256 := ha
        exact Nat.mul_le_mul_right _ this
      calc a * 256 ^ as.length + beVal as < (a + 1) * 256 ^ as.length := h2
        _ ≤ 256 * 256 ^ as.length := h3
        _ = 256 ^ (as.length + 1) := by ring
        _ = 256 ^ (a :: as).length := by simp

/-- The C comparison memcmp(a,b,n) < 0 on equal-length byte arrays agrees with
comparing the arrays as big-endian unsigned integers. -/
theorem memcmpLt_iff_beVal_lt (a b : Bytes) (hlen : a.length = b.length)
    (ha : ∀ x ∈ a, x < 256) (hb : ∀ x ∈ b, x < 256) :
    memcmpLt a b = true ↔ beVal a < beVal b := by
  induction a generalizing b with
  | nil =>
      cases b with
      | nil => simp [memcmpLt, beVal]
      | cons y ys => simp at hlen
  | cons x xs ih =>
      cases b with
      | nil => simp at hlen
      | cons y ys =>
          have hxs : ∀ v ∈ xs, v < 256 := fun v hv => ha v (by simp [hv])
          have hys : ∀ v ∈ ys, v < 256 := fun v hv => hb v (by simp [hv])
          have hx : x < 256 := ha x (by simp)
          have hlen2 : xs.length = ys.length := by simpa using hlen
          rw [beVal_cons, beVal_cons, hlen2]
          by_cases hlt : x < y
          · simp only [memcmpLt, hlt, if_true, true_iff]
            have hvx := beVal_lt_of_bytes xs hxs
            rw [hlen2] at hvx
            have hxy : x + 1 ≤ y := hlt
            calc x * 256 ^ ys.length + beVal xs
                < x * 256 ^ ys.length + 256 ^ ys.length := Nat.add_lt_add_left hvx _
              _ = (x + 1) * 256 ^ ys.length := by ring
              _ ≤ y * 256 ^ ys.length := Nat.mul_le_mul_right _ hxy
              _ ≤ y * 256 ^ ys.length + beVal ys := Nat.le_add_right _ _
          · by_cases hgt : y < x
            · have hmt : memcmpLt (x :: xs) (y :: ys) = false := by
                simp [memcmpLt, hlt, hgt]
              rw [hmt]
              simp only [Bool.false_eq_true, false_iff, not_lt]
              have hvy := beVal_lt_of_bytes ys hys
              have hyx : y + 1 ≤ x := hgt
              have hchain : y * 256 ^ ys.length + beVal ys < x * 256 ^ ys.length + beVal xs := by
                calc y * 256 ^ ys.length + beVal ys
                    < y * 256 ^ ys.length + 256 ^ ys.length := Nat.add_lt_add_left hvy _
                  _ = (y + 1) * 256 ^ ys.length := by ring
                  _ ≤ x * 256 ^ ys.length := Nat.mul_le_mul_right _ hyx
                  _ ≤ x * 256 ^ ys.length + beVal xs := Nat.le_add_right _ _
              exact Nat.le_of_lt hchain
            · have hxy : x = y := Nat.le_antisymm (Nat.le_of_not_lt hgt) (Nat.le_of_not_lt hlt)
              subst hxy
              simp only [memcmpLt, lt_irrefl, if_false]
              rw [ih ys hlen2 hxs hys]
              constructor
              · intro h; exact Nat.add_lt_add_left h _
              · intro h; exact Nat.lt_of_add_lt_add_left h

/-! ## Message types, errors, roles, key agreement algorithms -/

/-- ZRTP message types recognised by the codec (packetParser message type mapping). -/
inductive MsgType where
  | hello | helloACK | commit | dhpart1 | dhpart2 | confirm1 | confirm2 | conf2ACK
  | errorMsg | errorACK | goclear | clearACK | sasrelay | relayACK | ping | pingACK
  | fragment
  deriving DecidableEq, Repr

/-- Error and informational codes returned by the engine (subset used by the claims). -/
inductive Err where
  | invalidPacket | invalidCRC | invalidMessage | outOfOrder | packetFragmentInfo
  | unexpectedMessage | unmatchingHashChain | unmatchingMAC | unmatchingConfirmMAC
  | unmatchingHvi | invalidContext | unmatchingRepetition | cacheMismatch
  | unsupportedVersion | helloHashMismatch | builderFailure
  deriving DecidableEq, Repr

/-- Protocol role of a channel. -/
inductive Role where
  | initiator | responder
  deriving DecidableEq, Repr

/-- Key agreement algorithms. The integer mapping lives in cryptoUtils.h which is
not part of the provided sources; the enumeration is modelled from the spec:
DH finite-field and elliptic modes, a KEM mode, Preshared and Multistream. -/
inductive KeyAgr where
  | DH2k | DH3k | EC25 | EC38 | KEM1 | Prsh | Mult
  deriving DecidableEq, Repr

/-! ## Claim C8: retransmission timer steps -/

/-- Timer step adjustment performed on every TIMER event in the state machine
(stateMachine.c, identical pattern in all four timer branches):
`if (2*timerStep < cap) timerStep *= 2;`. -/
def timerStepUpdate (cap step : Nat) : Nat := if 2 * step < cap then 2 * step else step

/-- Step of the Hello retransmission timer after n timer firings; the timer is
armed with HELLO_BASE_RETRANSMISSION_STEP = 50 at INIT. -/
def helloStepAfter : Nat → Nat
  | 0 => 50
  | n + 1 => timerStepUpdate 200 (helloStepAfter n)

/-- Step of the non-Hello retransmission timer after n timer firings; armed with
NON_HELLO_BASE_RETRANSMISSION_STEP = 150. -/
def nonHelloStepAfter : Nat → Nat
  | 0 => 150
  | n + 1 => timerStepUpdate 1200 (nonHelloStepAfter n)

/-- Step evolution asserted by the claim: the step doubles on each firing until
it reaches the cap. -/
def claimedStepAfter (base cap n : Nat) : Nat := min (base * 2 ^ n) cap

theorem helloStepAfter_eq (n : Nat) : helloStepAfter n = 50 ∨ helloStepAfter n = 100 := by
  induction n with
  | zero => left; rfl
  | succ k ih =>
      rcases ih with h | h <;>
        simp [helloStepAfter, timerStepUpdate, h]

theorem nonHelloStepAfter_eq (n : Nat) :
    nonHelloStepAfter n = 150 ∨ nonHelloStepAfter n = 300 ∨ nonHelloStepAfter n = 600 := by
  induction n with
  | zero => left; rfl
  | succ k ih =>
      rcases ih with h | h | h <;>
        simp [nonHelloStepAfter, timerStepUpdate, h]

/-- Claim C8 (code_bug evidence). The code doubles the timer step only while
`2*step < cap` (strict), so the Hello timer step is stuck at 100 ms and never
reaches the 200 ms cap, and the non-Hello step is stuck at 600 ms and never
reaches the 1200 ms cap; the claim (and the RFC values named by the constants
HELLO_CAP_RETRANSMISSION_STEP / NON_HELLO_CAP_RETRANSMISSION_STEP) state that
the step doubles until reaching the caps. -/
theorem hello_timer_step_never_reaches_cap :
    helloStepAfter 2 = 100 ∧ claimedStepAfter 50 200 2 = 200 ∧
    (∀ n, helloStepAfter n ≠ 200) ∧
    nonHelloStepAfter 3 = 600 ∧ claimedStepAfter 150 1200 3 = 1200 ∧
    (∀ n, nonHelloStepAfter n ≠ 1200) := by
  refine ⟨by decide, by decide, ?_, by decide, by decide, ?_⟩
  · intro n
    rcases helloStepAfter_eq n with h | h <;> simp [h]
  · intro n
    rcases nonHelloStepAfter_eq n with h | h | h <;> simp [h]

/-! ## Claim C9: bzrtp_packetSetSequenceNumber -/

/-- Packet header length in bytes: ZRTP_FRAGMENTEDPACKET_HEADER_LENGTH = 20 for a
fragment, ZRTP_PACKET_HEADER_LENGTH = 12 otherwise. -/
def packetHeaderLength (t : MsgType) : Nat := if t = MsgType.fragment then 20 else 12

/-- Update of the header sequence number field: the two writes
packetString[2] = (seq >> 8) & 0xFF and packetString[3] = seq & 0xFF. -/
def setSeqField (packetString : Bytes) (sequenceNumber : Nat) : Bytes :=
  (packetString.set 2 (sequenceNumber / 256 % 256)).set 3 (sequenceNumber % 256)

/-- Writing a 32-bit CRC value big-endian at the four bytes starting at pos. -/
def writeCrcField (s : Bytes) (pos c : Nat) : Bytes :=
  (((s.set pos (c / 16777216 % 256)).set (pos + 1) (c / 65536 % 256)).set
    (pos + 2) (c / 256 % 256)).set (pos + 3) (c % 256)

/-- Source: bzrtp_packetSetSequenceNumber (packetParser.c). Writes the sequence
number big-endian into bytes 2 and 3 and recomputes the trailing CRC over the
header plus message part. The CRC32 primitive lives in cryptoUtils.c (not in the
provided sources) and is a parameter; its C return type is uint32_t, written
as a reduction modulo 2^32. -/
def bzrtp_packetSetSequenceNumber (crc : Bytes → Nat) (messageType : MsgType)
    (messageLength : Nat) (packetString : Bytes) (sequenceNumber : Nat) : Bytes :=
  writeCrcField (setSeqField packetString sequenceNumber)
    (messageLength + packetHeaderLength messageType)
    (crc ((setSeqField packetString sequenceNumber).take
      (messageLength + packetHeaderLength messageType)) % 4294967296)

theorem getD_set_ne (l : Bytes) (i j a : Nat) (h : i ≠ j) :
    (l.set i a).getD j 0 = l.getD j 0 := by
  induction l generalizing i j with
  | nil => simp
  | cons x xs ih =>
      cases i with
      | zero =>
          cases j with
          | zero => exact absurd rfl h
          | succ m => simp [List.set]
      | succ k =>
          cases j with
          | zero => simp [List.set]
          | succ m =>
              simp only [List.set, List.getD_cons_succ]
              exact ih k m (fun hk => h (by simp [hk]))

theorem getD_set_self (l : Bytes) (i a : Nat) (h : i < l.length) :
    (l.set i a).getD i 0 = a := by
  induction l generalizing i with
  | nil => simp at h
  | cons x xs ih =>
      cases i with
      | zero => simp [List.set]
      | succ k =>
          simp only [List.set, List.getD_cons_succ]
          exact ih k (by simpa using h)

theorem take_set_of_le (l : Bytes) (i k a : Nat) (h : k ≤ i) :
    (l.set i a).take k = l.take k := by
  induction l generalizing i k with
  | nil => simp
  | cons x xs ih =>
      cases i with
      | zero =>
          have : k = 0 := Nat.le_zero.mp h
          simp [this]
      | succ m =>
          cases k with
          | zero => simp
          | succ n =>
              simp only [List.set, List.take_succ_cons]
              rw [ih m n (Nat.le_of_succ_le_succ h)]

theorem length_set (l : Bytes) (i a : Nat) : (l.set i a).length = l.length :=
  List.length_set l i a

/-- Claim C9 (confirmed). On a packet string laid out by bzrtp_packetBuild
(header, message of messageLength bytes, 4 CRC bytes), setting the sequence
number writes it big-endian into bytes 2 and 3, rewrites the last four bytes so
that they hold CRC32 of all preceding bytes, and leaves every other byte (in
particular the whole message part) unchanged. -/
theorem set_sequence_number_updates_seq_and_crc_only
    (crc : Bytes → Nat) (t : MsgType) (len : Nat) (ps : Bytes) (seq : Nat)
    (hps : ps.length = len + packetHeaderLength t + 4) (hseq : seq < 65536) :
    (bzrtp_packetSetSequenceNumber crc t len ps seq).length = ps.length ∧
    be16 ((bzrtp_packetSetSequenceNumber crc t len ps seq).getD 2 0)
      ((bzrtp_packetSetSequenceNumber crc t len ps seq).getD 3 0) = seq ∧
    be32 ((bzrtp_packetSetSequenceNumber crc t len ps seq).getD (len + packetHeaderLength t) 0)
      ((bzrtp_packetSetSequenceNumber crc t len ps seq).getD (len + packetHeaderLength t + 1) 0)
      ((bzrtp_packetSetSequenceNumber crc t len ps seq).getD (len + packetHeaderLength t + 2) 0)
      ((bzrtp_packetSetSequenceNumber crc t len ps seq).getD (len + packetHeaderLength t + 3) 0)
      = crc ((bzrtp_packetSetSequenceNumber crc t len ps seq).take (len + packetHeaderLength t))
          % 4294967296 ∧
    (∀ i, i ≠ 2 → i ≠ 3 → i < len + packetHeaderLength t →
      (bzrtp_packetSetSequenceNumber crc t len ps seq).getD i 0 = ps.getD i 0) := by
  have hlen12 : 12 ≤ packetHeaderLength t := by
    unfold packetHeaderLength
    split <;> omega
  set hl := packetHeaderLength t with hhl
  set s : Bytes := setSeqField ps seq with hs
  have hslen : s.length = ps.length := by simp [hs, setSeqField]
  set c : Nat := crc (s.take (len + hl)) % 4294967296 with hc
  have hrdef : bzrtp_packetSetSequenceNumber crc t len ps seq =
      (((s.set (len + hl) (c / 16777216 % 256)).set
        (len + hl + 1) (c / 65536 % 256)).set
        (len + hl + 2) (c / 256 % 256)).set
        (len + hl + 3) (c % 256) := rfl
  have hsexp : s = (ps.set 2 (seq / 256 % 256)).set 3 (seq % 256) := rfl
  have hrlen : (bzrtp_packetSetSequenceNumber crc t len ps seq).length = ps.length := by
    rw [hrdef]; simp [hslen]
  refine ⟨hrlen, ?_, ?_, ?_⟩
  · -- sequence number bytes
    have h2 : (bzrtp_packetSetSequenceNumber crc t len ps seq).getD 2 0 = seq / 256 % 256 := by
      rw [hrdef]
      rw [getD_set_ne _ _ _ _ (by omega), getD_set_ne _ _ _ _ (by omega),
        getD_set_ne _ _ _ _ (by omega), getD_set_ne _ _ _ _ (by omega)]
      rw [hsexp, getD_set_ne _ _ _ _ (by omega)]
      exact getD_set_self _ _ _ (by omega)
    have h3 : (bzrtp_packetSetSequenceNumber crc t len ps seq).getD 3 0 = seq % 256 := by
      rw [hrdef]
      rw [getD_set_ne _ _ _ _ (by omega), getD_set_ne _ _ _ _ (by omega),
        getD_set_ne _ _ _ _ (by omega), getD_set_ne _ _ _ _ (by omega)]
      rw [hsexp]
      exact getD_set_self _ _ _ (by rw [length_set]; omega)
    rw [h2, h3]
    unfold be16
    have hq : seq / 256 % 256 = seq / 256 := by
      have : seq / 256 < 256 := by omega
      exact Nat.mod_eq_of_lt this
    rw [hq]
    omega
  · -- CRC bytes
    have htake : (bzrtp_packetSetSequenceNumber crc t len ps seq).take (len + hl)
        = s.take (len + hl) := by
      rw [hrdef]
      rw [take_set_of_le _ _ _ _ (by omega), take_set_of_le _ _ _ _ (by omega),
        take_set_of_le _ _ _ _ (by omega), take_set_of_le _ _ _ _ (by omega)]
    have hb0 : (bzrtp_packetSetSequenceNumber crc t len ps seq).getD (len + hl) 0
        = c / 16777216 % 256 := by
      rw [hrdef]
      rw [getD_set_ne _ _ _ _ (by omega), getD_set_ne _ _ _ _ (by omega),
        getD_set_ne _ _ _ _ (by omega)]
      exact getD_set_self _ _ _ (by rw [hslen]; omega)
    have hb1 : (bzrtp_packetSetSequenceNumber crc t len ps seq).getD (len + hl + 1) 0
        = c / 65536 % 256 := by
      rw [hrdef]
      rw [getD_set_ne _ _ _ _ (by omega), getD_set_ne _ _ _ _ (by omega)]
      exact getD_set_self _ _ _ (by rw [length_set, hslen]; omega)
    have hb2 : (bzrtp_packetSetSequenceNumber crc t len ps seq).getD (len + hl + 2) 0
        = c / 256 % 256 := by
      rw [hrdef]
      rw [getD_set_ne _ _ _ _ (by omega)]
      exact getD_set_self _ _ _ (by rw [length_set, length_set, hslen]; omega)
    have hb3 : (bzrtp_packetSetSequenceNumber crc t len ps seq).getD (len + hl + 3) 0
        = c % 256 := by
      rw [hrdef]
      exact getD_set_self _ _ _
        (by rw [length_set, length_set, length_set, hslen]; omega)
    rw [hb0, hb1, hb2, hb3, htake]
    unfold be32
    have hcb : c < 4294967296 := by
      rw [hc]; exact Nat.mod_lt _ (by norm_num)
    omega
  · -- all other bytes below the CRC area unchanged
    intro i hi2 hi3 hilt
    rw [hrdef]
    rw [getD_set_ne _ _ _ _ (by omega), getD_set_ne _ _ _ _ (by omega),
      getD_set_ne _ _ _ _ (by omega), getD_set_ne _ _ _ _ (by omega)]
    rw [hsexp]
    rw [getD_set_ne _ _ _ _ (fun h => hi3 h.symm), getD_set_ne _ _ _ _ (fun h => hi2 h.symm)]

/-- Witness for C9 at a concrete packet: a HelloACK-sized packet (12-byte header,
12-byte message, 4 CRC bytes) with sequence number 0x0102 and a toy CRC. -/
theorem set_sequence_number_updates_seq_and_crc_only_witness :
    (bzrtp_packetSetSequenceNumber (fun l => l.length) MsgType.helloACK 12
      (List.replicate 28 7) 258).length = (List.replicate 28 7 : Bytes).length ∧
    be16 ((bzrtp_packetSetSequenceNumber (fun l => l.length) MsgType.helloACK 12
        (List.replicate 28 7) 258).getD 2 0)
      ((bzrtp_packetSetSequenceNumber (fun l => l.length) MsgType.helloACK 12
        (List.replicate 28 7) 258).getD 3 0) = 258 := by
  have h := set_sequence_number_updates_seq_and_crc_only
    (fun l => l.length) MsgType.helloACK 12 (List.replicate 28 7) 258
    (by decide) (by decide)
  exact ⟨h.1, h.2.1⟩

/-! ## Claim C1: s0 computation in DH mode (bzrtp_computeS0DHMMode) -/

/-- ASCII bytes of the fixed KDF label "ZRTP-HMAC-KDF" (13 bytes). -/
def zrtpHmacKdfLabel : Bytes := [90, 82, 84, 80, 45, 72, 77, 65, 67, 45, 75, 68, 70]

/-- Encoding of one shared-secret contribution: a 32-bit big-endian length
followed by the secret bytes; a NULL secret contributes length 0 and no bytes. -/
def secretChunk : Option Bytes → Bytes
  | some v => natToBe32 v.length ++ v
  | none => natToBe32 0

/-- Source: bzrtp_computeS0DHMMode (stateMachine.c). The negotiated hash is the
channel's hashFunction pointer, a parameter here (data, output length); the
stored message bodies (packetString bytes past the 12-byte packet header, of
messageLength bytes) and the ZIDs are passed explicitly in place of the context
fields the C reads. Returns the computed s0. -/
def bzrtp_computeS0DHMMode (hashFn : Bytes → Nat → Bytes) (hashLength : Nat) (role : Role)
    (selfHelloBody peerHelloBody selfCommitBody peerCommitBody
      selfDHPartBody peerDHPartBody : Bytes)
    (selfZID peerZID : Bytes) (dhResult : Bytes)
    (rs1 rs2 auxsecret pbxsecret : Option Bytes) : Bytes :=
  let dataToHash :=
    if role = Role.responder then
      selfHelloBody ++ peerCommitBody ++ selfDHPartBody ++ peerDHPartBody
    else
      peerHelloBody ++ selfCommitBody ++ peerDHPartBody ++ selfDHPartBody
  let ZIDi := if role = Role.responder then peerZID else selfZID
  let ZIDr := if role = Role.responder then selfZID else peerZID
  let totalHash := hashFn dataToHash hashLength
  let KDFContext := ZIDi ++ ZIDr ++ totalHash
  let s1 := if rs1.isSome then rs1 else rs2
  hashFn ([0, 0, 0, 1] ++ dhResult ++ zrtpHmacKdfLabel ++ KDFContext
    ++ secretChunk s1 ++ secretChunk auxsecret ++ secretChunk pbxsecret) hashLength

/-- Formula asserted by the claim, written from its words: s0 equals the
negotiated hash of 0x00000001 || DHResult || "ZRTP-HMAC-KDF" || KDF_context ||
len(s1)||s1 || len(s2)||s2 || len(s3)||s3, where
KDF_context = ZID_i || ZID_r || total_hash, total_hash is the negotiated hash of
the message bodies of responder's Hello, Commit, DHPart1, DHPart2 in that order,
s1 is rs1 if held else rs2 else absent, s2 is the auxsecret, s3 the pbxsecret,
each length 32-bit big-endian, and an absent secret contributes a zero length
and no bytes. -/
def claimS0Formula (hashFn : Bytes → Nat → Bytes) (hashLength : Nat)
    (responderHelloBody commitBody dhPart1Body dhPart2Body : Bytes)
    (zidInitiator zidResponder : Bytes) (dhResult : Bytes)
    (rs1 rs2 auxsecret pbxsecret : Option Bytes) : Bytes :=
  let totalHash := hashFn (responderHelloBody ++ commitBody ++ dhPart1Body ++ dhPart2Body)
    hashLength
  let kdfContext := zidInitiator ++ zidResponder ++ totalHash
  let s1 := if rs1.isSome then rs1 else rs2
  hashFn ([0, 0, 0, 1] ++ dhResult ++ zrtpHmacKdfLabel ++ kdfContext
    ++ secretChunk s1 ++ secretChunk auxsecret ++ secretChunk pbxsecret) hashLength

/-- Claim C1 (confirmed). For either role, the s0 computed by
bzrtp_computeS0DHMMode equals the claim's formula, once the role-dependent
identification of stored packets is spelled out: the responder's Hello is the
self Hello when acting as responder and the peer Hello otherwise; the Commit is
the initiator's; DHPart1 is the responder's DHPart and DHPart2 the initiator's;
ZID_i is the initiator's ZID and ZID_r the responder's. -/
theorem s0_dhm_matches_claim_formula
    (hashFn : Bytes → Nat → Bytes) (hashLength : Nat) (role : Role)
    (selfHelloBody peerHelloBody selfCommitBody peerCommitBody
      selfDHPartBody peerDHPartBody : Bytes)
    (selfZID peerZID : Bytes) (dhResult : Bytes)
    (rs1 rs2 auxsecret pbxsecret : Option Bytes) :
    bzrtp_computeS0DHMMode hashFn hashLength role
      selfHelloBody peerHelloBody selfCommitBody peerCommitBody
      selfDHPartBody peerDHPartBody selfZID peerZID dhResult
      rs1 rs2 auxsecret pbxsecret
    = claimS0Formula hashFn hashLength
      (if role = Role.responder then selfHelloBody else peerHelloBody)
      (if role = Role.responder then peerCommitBody else selfCommitBody)
      (if role = Role.responder then selfDHPartBody else peerDHPartBody)
      (if role = Role.responder then peerDHPartBody else selfDHPartBody)
      (if role = Role.responder then peerZID else selfZID)
      (if role = Role.responder then selfZID else peerZID)
      dhResult rs1 rs2 auxsecret pbxsecret := by
  cases role <;> rfl

/-! ## Packet parser checks (claims C2 and C10)

The parser works here on structured messages: the byte-offset field extraction
of bzrtp_packetParser is not re-verified, but every check the C performs
(prerequisite stored packets, hash chain, MACs, hvi, lengths) is transcribed in
the order the C performs it. -/

/-- Stored Hello message (peerPackets/selfPackets slot 0): the message body
bytes (packetString past the 12-byte packet header) plus the parsed fields the
later checks consult. -/
structure StoredHello where
  body : Bytes
  H3 : Bytes
  MAC : Bytes
  mFlag : Bool
  deriving DecidableEq, Repr

/-- Stored peer Commit message (slot 1). -/
structure StoredCommit where
  body : Bytes
  H2 : Bytes
  MAC : Bytes
  hvi : Bytes
  deriving DecidableEq, Repr

/-- Stored peer DHPart message (slot 2). -/
structure StoredDHPart where
  body : Bytes
  H1 : Bytes
  MAC : Bytes
  deriving DecidableEq, Repr

/-- Incoming Commit message with its parsed fields and raw body bytes. -/
structure CommitWire where
  seqNum : Nat
  messageLength : Nat
  body : Bytes
  H2 : Bytes
  ZID : Bytes
  hashAlgo : Nat
  cipherAlgo : Nat
  authTagAlgo : Nat
  keyAgreementAlgo : KeyAgr
  sasAlgo : Nat
  nonce : Bytes
  keyID : Bytes
  hvi : Bytes
  pv : Bytes
  MAC : Bytes
  deriving DecidableEq, Repr

/-- Incoming DHPart message with its parsed fields and raw body bytes. -/
structure DHPartWire where
  seqNum : Nat
  messageLength : Nat
  body : Bytes
  H1 : Bytes
  rs1ID : Bytes
  rs2ID : Bytes
  auxsecretID : Bytes
  pbxsecretID : Bytes
  pv : Bytes
  MAC : Bytes
  deriving DecidableEq, Repr

/-- Incoming Confirm message: confirm-MAC, CFB IV and the encrypted part. -/
structure ConfirmWire where
  seqNum : Nat
  messageLength : Nat
  body : Bytes
  confirmMac : Bytes
  CFBIV : Bytes
  ciphertext : Bytes
  deriving DecidableEq, Repr

/-- Result of parsing a Confirm message: the revealed H0 (leading 32 bytes of
the decrypted block). -/
structure ConfirmParsed where
  H0 : Bytes
  deriving DecidableEq, Repr

/-- External primitives reached through bctoolbox, through the channel's
negotiated function pointers, or defined in cryptoUtils.c which is not among
the provided sources; and the unspecified bytes read by the repetition checks,
whose memcmp compares the incoming message against peerPackets[slot]+12 where
the dereference of the packetString field is missing, so the bytes read are
struct-pointer arithmetic past the stored packet structure. -/
structure Env where
  sha256 : Bytes → Bytes
  hmacSha256 : Bytes → Bytes → Nat → Bytes
  hashFn : Bytes → Nat → Bytes
  hmacFn : Bytes → Bytes → Nat → Bytes
  decrypt : Bytes → Bytes → Bytes → Bytes
  kdf : Bytes → Bytes → Bytes → Nat → Bytes
  vlen : KeyAgr → Nat
  pvLen : KeyAgr → MsgType → Nat
  dhCompute : Bytes → Bytes
  junkHello : Bytes
  junkCommit : Bytes
  junkDHPart : Bytes
  junkConfirm : Bytes

/-- Bytes over which a stored message's 8-byte MAC is computed: the stored
message minus its trailing 8 MAC bytes (messageLength - 8). -/
def macedPart (body : Bytes) : Bytes := body.take (body.length - 8)

/-- Source: bzrtp_packetParser, MSGTYPE_COMMIT case. Requires the stored peer
Hello, recomputes H3 = SHA256(H2) against it, recomputes the 8-byte
HMAC-SHA-256 of the stored Hello body (MAC excluded) keyed with the revealed
H2, and validates the variable-length part announced by the key agreement. -/
def parseCommitMsg (env : Env) (peerHello : Option StoredHello) (m : CommitWire) :
    Except Err CommitWire :=
  match peerHello with
  | none => .error .unexpectedMessage
  | some h =>
    if env.sha256 m.H2 ≠ h.H3 then .error .unmatchingHashChain
    else if env.hmacSha256 m.H2 (macedPart h.body) 8 ≠ h.MAC then .error .unmatchingMAC
    else if env.vlen m.keyAgreementAlgo = 0 then .error .invalidMessage
    else if m.messageLength ≠ 84 + env.vlen m.keyAgreementAlgo then .error .invalidMessage
    else .ok m

/-- Source: bzrtp_packetParser, MSGTYPE_DHPART1/MSGTYPE_DHPART2 case. Public
value length and message length first; then, when responder, prerequisite peer
Commit, H2 = SHA256(H1), Commit MAC keyed with H1 and the hvi of the stored
Commit against the hash of incoming-DHPart2-body || self-Hello-body; when
initiator, prerequisite peer Hello, H3 = SHA256(SHA256(H1)) and Hello MAC keyed
with SHA256(H1). -/
def parseDHPartMsg (env : Env) (channelAlgo : KeyAgr) (role : Role)
    (peerHello : Option StoredHello) (peerCommit : Option StoredCommit)
    (selfHello : StoredHello) (t : MsgType) (m : DHPartWire) :
    Except Err DHPartWire :=
  if env.pvLen channelAlgo t = 0 then .error .invalidContext
  else if m.messageLength ≠ 84 + env.pvLen channelAlgo t then .error .invalidMessage
  else if role = Role.responder then
    match peerCommit with
    | none => .error .unexpectedMessage
    | some c =>
      if env.sha256 m.H1 ≠ c.H2 then .error .unmatchingHashChain
      else if env.hmacSha256 m.H1 (macedPart c.body) 8 ≠ c.MAC then .error .unmatchingMAC
      else if env.hashFn (m.body ++ selfHello.body) 32 ≠ c.hvi then .error .unmatchingHvi
      else .ok m
  else
    match peerHello with
    | none => .error .unexpectedMessage
    | some h =>
      if env.sha256 (env.sha256 m.H1) ≠ h.H3 then .error .unmatchingHashChain
      else if env.hmacSha256 (env.sha256 m.H1) (macedPart h.body) 8 ≠ h.MAC then
        .error .unmatchingMAC
      else .ok m

/-- Source: bzrtp_packetParser, MSGTYPE_CONFIRM1/MSGTYPE_CONFIRM2 case. The
decryption keys of the sending side must be present; the confirm-MAC (keyed
with the negotiated HMAC, over the ciphertext) is validated before decrypting;
then the hash chain implied by the revealed H0 is checked: without a DHPart
exchange (Preshared/Multistream) against the stored Commit (responder) or Hello
(initiator), and in DH mode against the stored peer DHPart. -/
def parseConfirmMsg (env : Env) (algo : KeyAgr) (role : Role)
    (mackeyi mackeyr zrtpkeyi zrtpkeyr : Option Bytes)
    (peerHello : Option StoredHello) (peerCommit : Option StoredCommit)
    (peerDHPart : Option StoredDHPart) (m : ConfirmWire) :
    Except Err ConfirmParsed :=
  let keyPair : Option (Bytes × Bytes) :=
    if role = Role.responder then
      match zrtpkeyi, mackeyi with
      | some k, some mk => some (k, mk)
      | _, _ => none
    else
      match zrtpkeyr, mackeyr with
      | some k, some mk => some (k, mk)
      | _, _ => none
  match keyPair with
  | none => .error .invalidContext
  | some (ck, mk) =>
    if env.hmacFn mk m.ciphertext 8 ≠ m.confirmMac then .error .unmatchingConfirmMAC
    else
      let H0 := (env.decrypt ck m.CFBIV m.ciphertext).take 32
      if algo = KeyAgr.Prsh ∨ algo = KeyAgr.Mult then
        if role = Role.responder then
          match peerCommit with
          | none => .error .unexpectedMessage
          | some c =>
            if env.sha256 (env.sha256 H0) ≠ c.H2 then .error .unmatchingHashChain
            else if env.hmacSha256 (env.sha256 H0) (macedPart c.body) 8 ≠ c.MAC then
              .error .unmatchingMAC
            else .ok ⟨H0⟩
        else
          match peerHello with
          | none => .error .unexpectedMessage
          | some h =>
            if env.sha256 (env.sha256 (env.sha256 H0)) ≠ h.H3 then .error .unmatchingHashChain
            else if env.hmacSha256 (env.sha256 (env.sha256 H0)) (macedPart h.body) 8 ≠ h.MAC then
              .error .unmatchingMAC
            else .ok ⟨H0⟩
      else
        match peerDHPart with
        | none => .error .unexpectedMessage
        | some d =>
          if env.sha256 H0 ≠ d.H1 then .error .unmatchingHashChain
          else if env.hmacSha256 H0 (macedPart d.body) 8 ≠ d.MAC then .error .unmatchingMAC
          else .ok ⟨H0⟩

/-! ## Channel state machine (claims C3, C4, C5, C6) -/

/-- States of the channel state machine (one per state function of the source). -/
inductive StateId where
  | discoveryInit | waitingForHello | waitingForHelloAck | sendingCommit
  | responderSendingDHPart1 | initiatorSendingDHPart2
  | responderSendingConfirm1 | initiatorSendingConfirm2 | secure
  deriving DecidableEq, Repr

/-- Hashes of the session-wide cached secrets for one side (rfc 4.3.1). -/
structure SecretIDs where
  rs1ID : Bytes
  rs2ID : Bytes
  pbxsecretID : Bytes
  deriving DecidableEq, Repr

/-- Pre-built self Commit packet: the fields the contention logic consults plus
the message body used by the total_hash. -/
structure SelfCommit where
  keyAgreementAlgo : KeyAgr
  hvi : Bytes
  nonce : Bytes
  body : Bytes
  deriving DecidableEq, Repr

/-- Pre-built self DHPart packet (built as a DHPart2 after the Hello exchange;
its type and secret-ID fields are rewritten when turning into responder). -/
structure SelfDHPart where
  messageType : MsgType
  rs1ID : Bytes
  rs2ID : Bytes
  auxsecretID : Bytes
  pbxsecretID : Bytes
  body : Bytes
  deriving DecidableEq, Repr

/-- Combined channel and session context: the fields of
bzrtpChannelContext_t/bzrtpContext_t that the modelled state functions read or
write (explicit state passing in place of the C's in-place mutation). -/
structure Channel where
  state : StateId
  role : Role
  keyAgreementAlgo : KeyAgr
  hashAlgo : Nat
  cipherAlgo : Nat
  authTagAlgo : Nat
  sasAlgo : Nat
  timerOn : Bool
  selfSequenceNumber : Nat
  peerSequenceNumber : Nat
  selfHello : StoredHello
  selfCommit : Option SelfCommit
  selfDHPart : Option SelfDHPart
  selfConfirmStored : Bool
  peerHello : Option StoredHello
  peerCommit : Option StoredCommit
  peerDHPart : Option StoredDHPart
  peerConfirm : Option Bytes
  peerH0 : Bytes
  peerH1 : Bytes
  peerH2 : Bytes
  peerH3 : Bytes
  initiatorAuxsecretID : Bytes
  responderAuxsecretID : Bytes
  initiatorSecretIDs : SecretIDs
  responderSecretIDs : SecretIDs
  rs1 : Option Bytes
  rs2 : Option Bytes
  auxsecret : Option Bytes
  pbxsecret : Option Bytes
  mackeyi : Option Bytes
  mackeyr : Option Bytes
  zrtpkeyi : Option Bytes
  zrtpkeyr : Option Bytes
  s0 : Option Bytes
  kdfContext : Bytes
  zrtpSess : Option Bytes
  hashLength : Nat
  cipherKeyLength : Nat
  selfZID : Bytes
  peerZID : Bytes
  dhResult : Bytes
  isSecure : Bool
  deriving DecidableEq, Repr

/-- Incoming message event after the packet check stage, as a structured value. -/
inductive Incoming where
  | helloMsg (seqNum : Nat) (body : Bytes)
  | helloACK (seqNum : Nat)
  | commitMsg (m : CommitWire)
  | dhPart (t : MsgType) (m : DHPartWire)
  | confirmMsg (t : MsgType) (m : ConfirmWire)
  | conf2ACK (seqNum : Nat)
  | otherMsg
  deriving DecidableEq, Repr

instance instDecEqExcept {α β : Type} [DecidableEq α] [DecidableEq β] :
    DecidableEq (Except α β) := fun a b =>
  match a, b with
  | Except.ok x, Except.ok y =>
      if h : x = y then Decidable.isTrue (congrArg Except.ok h)
      else Decidable.isFalse (fun hh => h (Except.ok.inj hh))
  | Except.error x, Except.error y =>
      if h : x = y then Decidable.isTrue (congrArg Except.error h)
      else Decidable.isFalse (fun hh => h (Except.error.inj hh))
  | Except.ok _, Except.error _ => Decidable.isFalse (fun hh => Except.noConfusion hh)
  | Except.error _, Except.ok _ => Decidable.isFalse (fun hh => Except.noConfusion hh)

/-- Result of running a state function: the returned code, the updated channel
and the message types handed to the send callback. -/
structure StepRes where
  ret : Except Err Unit
  ch : Channel
  sent : List MsgType
  deriving DecidableEq, Repr

/-- ASCII bytes of "ZRTP Session Key". -/
def zrtpSessionKeyLabel : Bytes := [90, 82, 84, 80, 32, 83, 101, 115, 115, 105, 111, 110, 32, 75, 101, 121]

/-- ASCII bytes of "ZRTP MSK". -/
def zrtpMskLabel : Bytes := [90, 82, 84, 80, 32, 77, 83, 75]

/-- ASCII bytes of "Initiator HMAC key". -/
def initiatorHmacKeyLabel : Bytes := [73, 110, 105, 116, 105, 97, 116, 111, 114, 32, 72, 77, 65, 67, 32, 107, 101, 121]

/-- ASCII bytes of "Responder HMAC key". -/
def responderHmacKeyLabel : Bytes := [82, 101, 115, 112, 111, 110, 100, 101, 114, 32, 72, 77, 65, 67, 32, 107, 101, 121]

/-- ASCII bytes of "Initiator ZRTP key". -/
def initiatorZrtpKeyLabel : Bytes := [73, 110, 105, 116, 105, 97, 116, 111, 114, 32, 90, 82, 84, 80, 32, 107, 101, 121]

/-- ASCII bytes of "Responder ZRTP key". -/
def responderZrtpKeyLabel : Bytes := [82, 101, 115, 112, 111, 110, 100, 101, 114, 32, 90, 82, 84, 80, 32, 107, 101, 121]

/-- The initiator's ZID of a channel: the peer's when acting as responder. -/
def zidInitiatorOf (ch : Channel) : Bytes :=
  if ch.role = Role.responder then ch.peerZID else ch.selfZID

/-- The responder's ZID of a channel. -/
def zidResponderOf (ch : Channel) : Bytes :=
  if ch.role = Role.responder then ch.selfZID else ch.peerZID

/-- Source: bzrtp_deriveKeysFromS0 (stateMachine.c): mackeyi, mackeyr, zrtpkeyi,
zrtpkeyr derived from s0 by the HMAC KDF (bzrtp_keyDerivationFunction lives in
cryptoUtils.c and is the kdf parameter). -/
def bzrtp_deriveKeysFromS0 (env : Env) (ch : Channel) : Channel :=
  { ch with
    mackeyi := some (env.kdf (ch.s0.getD []) initiatorHmacKeyLabel ch.kdfContext ch.hashLength)
    mackeyr := some (env.kdf (ch.s0.getD []) responderHmacKeyLabel ch.kdfContext ch.hashLength)
    zrtpkeyi := some (env.kdf (ch.s0.getD []) initiatorZrtpKeyLabel ch.kdfContext ch.cipherKeyLength)
    zrtpkeyr := some (env.kdf (ch.s0.getD []) responderZrtpKeyLabel ch.kdfContext ch.cipherKeyLength) }

/-- Source: bzrtp_computeS0MultiStreamMode (stateMachine.c): total_hash over
responder's Hello || Commit, KDF context, s0 = KDF(ZRTPSess, "ZRTP MSK",
context, hashLength), then the derived keys. The C dereferences the stored
packets and ZRTPSess unconditionally; absent values are read as empty. -/
def bzrtp_computeS0MultiStreamMode (env : Env) (ch : Channel) : Channel :=
  let dataToHash :=
    if ch.role = Role.responder then
      ch.selfHello.body ++ ((ch.peerCommit.map (fun c => c.body)).getD [])
    else
      ((ch.peerHello.map (fun h => h.body)).getD [])
        ++ ((ch.selfCommit.map (fun c => c.body)).getD [])
  let totalHash := env.hashFn dataToHash ch.hashLength
  let ctx := zidInitiatorOf ch ++ zidResponderOf ch ++ totalHash
  let s0 := env.kdf (ch.zrtpSess.getD []) zrtpMskLabel ctx ch.hashLength
  bzrtp_deriveKeysFromS0 env { ch with kdfContext := ctx, s0 := some s0 }

/-- Channel update performed by bzrtp_computeS0DHMMode: s0 (via the C1 model of
the same function), KDF context, ZRTPSess = KDF(s0, "ZRTP Session Key",
context, hashLength), then the derived keys. -/
def applyS0DHMMode (env : Env) (ch : Channel) : Channel :=
  let selfCommitBody := (ch.selfCommit.map (fun c => c.body)).getD []
  let peerCommitBody := (ch.peerCommit.map (fun c => c.body)).getD []
  let selfDHPartBody := (ch.selfDHPart.map (fun d => d.body)).getD []
  let peerDHPartBody := (ch.peerDHPart.map (fun d => d.body)).getD []
  let peerHelloBody := (ch.peerHello.map (fun h => h.body)).getD []
  let dataToHash :=
    if ch.role = Role.responder then
      ch.selfHello.body ++ peerCommitBody ++ selfDHPartBody ++ peerDHPartBody
    else
      peerHelloBody ++ selfCommitBody ++ peerDHPartBody ++ selfDHPartBody
  let totalHash := env.hashFn dataToHash ch.hashLength
  let ctx := zidInitiatorOf ch ++ zidResponderOf ch ++ totalHash
  let s0 := bzrtp_computeS0DHMMode env.hashFn ch.hashLength ch.role
    ch.selfHello.body peerHelloBody selfCommitBody peerCommitBody
    selfDHPartBody peerDHPartBody ch.selfZID ch.peerZID ch.dhResult
    ch.rs1 ch.rs2 ch.auxsecret ch.pbxsecret
  let ch2 := { ch with
    kdfContext := ctx
    s0 := some s0
    zrtpSess := some (env.kdf s0 zrtpSessionKeyLabel ctx ch.hashLength) }
  bzrtp_deriveKeysFromS0 env ch2

/-- INIT event of state_keyAgreement_initiatorSendingDHPart2: send the stored
DHPart2 with the next sequence number and arm the non-Hello timer. -/
def initInitiatorSendingDHPart2 (ch : Channel) : StepRes :=
  ⟨.ok (), { ch with selfSequenceNumber := ch.selfSequenceNumber + 1, timerOn := true },
    [MsgType.dhpart2]⟩

/-- INIT event of state_keyAgreement_responderSendingDHPart1: the pre-built
DHPart1 must be in the context (INVALIDCONTEXT otherwise); timer off; the
packet is sent once without a new sequence number (already incremented while
turning into responder). -/
def initResponderSendingDHPart1 (ch : Channel) : StepRes :=
  match ch.selfDHPart with
  | none => ⟨.error .invalidContext, ch, []⟩
  | some _ => ⟨.ok (), { ch with timerOn := false }, [MsgType.dhpart1]⟩

/-- INIT event of state_confirmation_responderSendingConfirm1: in Multistream
mode ZRTPSess must exist and s0 and the keys are derived from it; in DH mode the
responder keys must exist; then the Confirm1 packet is built (its byte contents
are not modelled: no claim depends on them), stored and sent once. -/
def initResponderSendingConfirm1 (env : Env) (ch : Channel) : StepRes :=
  if ch.keyAgreementAlgo = KeyAgr.Mult then
    if ch.zrtpSess = none then ⟨.error .invalidContext, ch, []⟩
    else
      let ch2 := bzrtp_computeS0MultiStreamMode env ch
      ⟨.ok (), { ch2 with
        timerOn := false
        selfConfirmStored := true
        selfSequenceNumber := ch2.selfSequenceNumber + 1 }, [MsgType.confirm1]⟩
  else if ch.keyAgreementAlgo = KeyAgr.Prsh then
    ⟨.ok (), { ch with
      timerOn := false
      selfConfirmStored := true
      selfSequenceNumber := ch.selfSequenceNumber + 1 }, [MsgType.confirm1]⟩
  else
    if ch.mackeyr = none ∨ ch.zrtpkeyr = none then ⟨.error .invalidContext, ch, []⟩
    else
      ⟨.ok (), { ch with
        timerOn := false
        selfConfirmStored := true
        selfSequenceNumber := ch.selfSequenceNumber + 1 }, [MsgType.confirm1]⟩

/-- INIT event of state_confirmation_initiatorSendingConfirm2: the initiator
keys must exist; the Confirm2 is built (contents not modelled), stored, sent,
and the non-Hello timer armed. -/
def initInitiatorSendingConfirm2 (ch : Channel) : StepRes :=
  if ch.mackeyi = none ∨ ch.zrtpkeyi = none then ⟨.error .invalidContext, ch, []⟩
  else
    ⟨.ok (), { ch with
      selfConfirmStored := true
      selfSequenceNumber := ch.selfSequenceNumber + 1
      timerOn := true }, [MsgType.confirm2]⟩

/-- Source: bzrtp_turnIntoResponder (stateMachine.c). Stops the timer, stores
the peer Commit and its H2, switches to responder, copies the algorithms chosen
by the peer's Commit; when a self DHPart packet exists (DH mode) swaps the
initiator/responder auxiliary-secret IDs and rebuilds the packet as a DHPart1
carrying the responder cached-secret IDs (the rebuild increments the sequence
number); finally transitions to the responder branch and runs its INIT event. -/
def bzrtp_turnIntoResponder (env : Env) (ch : Channel) (m : CommitWire) : StepRes :=
  let ch1 := { ch with
    timerOn := false
    peerCommit := some ⟨m.body, m.H2, m.MAC, m.hvi⟩
    peerH2 := m.H2
    role := Role.responder
    hashAlgo := m.hashAlgo
    cipherAlgo := m.cipherAlgo
    authTagAlgo := m.authTagAlgo
    keyAgreementAlgo := m.keyAgreementAlgo
    sasAlgo := m.sasAlgo }
  let ch2 :=
    match ch1.selfDHPart with
    | none => ch1
    | some d =>
      { ch1 with
        initiatorAuxsecretID := ch1.responderAuxsecretID
        responderAuxsecretID := ch1.initiatorAuxsecretID
        selfDHPart := some { d with
          messageType := MsgType.dhpart1
          rs1ID := ch1.responderSecretIDs.rs1ID
          rs2ID := ch1.responderSecretIDs.rs2ID
          auxsecretID := ch1.initiatorAuxsecretID
          pbxsecretID := ch1.responderSecretIDs.pbxsecretID }
        selfSequenceNumber := ch1.selfSequenceNumber + 1 }
  if ch2.keyAgreementAlgo = KeyAgr.Prsh ∨ ch2.keyAgreementAlgo = KeyAgr.Mult then
    initResponderSendingConfirm1 env { ch2 with state := StateId.responderSendingConfirm1 }
  else
    initResponderSendingDHPart1 { ch2 with state := StateId.responderSendingDHPart1 }

/-- Source: the commit-contention decision of state_keyAgreement_sendingCommit
(rfc section 4.2 comment block): the current role is kept unless one of the
conditions switches it to responder. -/
def commitContention (cur : Role) (selfC : SelfCommit) (m : CommitWire)
    (selfM peerM : Bool) : Role :=
  if m.keyAgreementAlgo ≠ selfC.keyAgreementAlgo then
    if m.keyAgreementAlgo ≠ KeyAgr.Prsh ∧ selfC.keyAgreementAlgo = KeyAgr.Prsh then
      Role.responder
    else cur
  else
    if m.keyAgreementAlgo = KeyAgr.Prsh ∧ (selfM = true ∨ peerM = true) then
      if selfM then Role.responder else cur
    else
      if selfC.keyAgreementAlgo = KeyAgr.Prsh ∨ selfC.keyAgreementAlgo = KeyAgr.Mult then
        if memcmpLt selfC.nonce m.nonce then Role.responder else cur
      else
        if memcmpLt selfC.hvi m.hvi then Role.responder else cur

/-- Cached-secret ID validation of an incoming DHPart against the locally
computed initiator-side IDs: only secrets held locally are compared. -/
def dhPartSecretIDsMismatch (ch : Channel) (m : DHPartWire) : Bool :=
  (ch.rs1.isSome && ch.initiatorSecretIDs.rs1ID ≠ m.rs1ID) ||
  (ch.rs2.isSome && ch.initiatorSecretIDs.rs2ID ≠ m.rs2ID) ||
  (ch.auxsecret.isSome && ch.initiatorAuxsecretID ≠ m.auxsecretID) ||
  (ch.pbxsecret.isSome && ch.initiatorSecretIDs.pbxsecretID ≠ m.pbxsecretID)

/-- Source: state_keyAgreement_sendingCommit (stateMachine.c), MESSAGE events.
Note the unexpected-message guard for DHPart1 repeats the Prsh test on both
sides of its || (the source literally tests Prsh twice), so a Multistream
channel is not rejected there. -/
def stepSendingCommit (env : Env) (ch : Channel) (msg : Incoming) : StepRes :=
  match msg with
  | Incoming.commitMsg m =>
    match parseCommitMsg env ch.peerHello m with
    | .error e => ⟨.error e, ch, []⟩
    | .ok _ =>
      match ch.selfCommit with
      | none => ⟨.error .invalidContext, { ch with peerSequenceNumber := m.seqNum }, []⟩
      | some sc =>
        let peerM := (ch.peerHello.map (fun h => h.mFlag)).getD false
        if commitContention ch.role sc m ch.selfHello.mFlag peerM = Role.responder then
          bzrtp_turnIntoResponder env
            { ch with
              peerSequenceNumber := m.seqNum
              role := Role.responder
              selfCommit := none } m
        else
          ⟨.ok (), { ch with peerSequenceNumber := m.seqNum }, []⟩
  | Incoming.dhPart t m =>
    if t ≠ MsgType.dhpart1 then ⟨.error .unexpectedMessage, ch, []⟩
    else if ch.keyAgreementAlgo = KeyAgr.Prsh ∨ ch.keyAgreementAlgo = KeyAgr.Prsh then
      ⟨.error .unexpectedMessage, ch, []⟩
    else
      match parseDHPartMsg env ch.keyAgreementAlgo ch.role ch.peerHello ch.peerCommit
          ch.selfHello t m with
      | .error e => ⟨.error e, ch, []⟩
      | .ok _ =>
        let ch1 := { ch with peerSequenceNumber := m.seqNum, timerOn := false }
        if dhPartSecretIDsMismatch ch1 m then ⟨.error .cacheMismatch, ch1, []⟩
        else
          let ch2 := { ch1 with
            peerH1 := m.H1
            peerDHPart := some ⟨m.body, m.H1, m.MAC⟩
            dhResult := env.dhCompute m.pv }
          let ch3 := applyS0DHMMode env ch2
          initInitiatorSendingDHPart2 { ch3 with state := StateId.initiatorSendingDHPart2 }
  | Incoming.confirmMsg t m =>
    if t ≠ MsgType.confirm1 then ⟨.error .unexpectedMessage, ch, []⟩
    else if ch.keyAgreementAlgo ≠ KeyAgr.Prsh ∧ ch.keyAgreementAlgo ≠ KeyAgr.Mult then
      ⟨.error .unexpectedMessage, ch, []⟩
    else
      let ch0 := if ch.keyAgreementAlgo = KeyAgr.Mult
        then bzrtp_computeS0MultiStreamMode env ch else ch
      match parseConfirmMsg env ch0.keyAgreementAlgo ch0.role ch0.mackeyi ch0.mackeyr
          ch0.zrtpkeyi ch0.zrtpkeyr ch0.peerHello ch0.peerCommit ch0.peerDHPart m with
      | .error e => ⟨.error e, ch0, []⟩
      | .ok p =>
        let ch1 := { ch0 with
          peerSequenceNumber := m.seqNum
          timerOn := false
          peerH0 := p.H0 }
        initInitiatorSendingConfirm2 { ch1 with state := StateId.initiatorSendingConfirm2 }
  | _ => ⟨.error .unexpectedMessage, ch, []⟩

/-- Source: state_discovery_waitingForHelloAck (stateMachine.c), MESSAGE events.
A repeated Hello is compared, Hello/packet header excluded, against the bytes
at peerPackets[HELLO]+12; the packetString dereference is missing in the
source, so those are the unspecified junkHello bytes, not the stored Hello. -/
def stepWaitingForHelloAck (env : Env) (ch : Channel) (msg : Incoming) : StepRes :=
  match msg with
  | Incoming.helloMsg seqNum body =>
    let n := (ch.peerHello.map (fun h => h.body.length)).getD 0
    if body.take n ≠ env.junkHello.take n then ⟨.error .unmatchingRepetition, ch, []⟩
    else
      ⟨.ok (), { ch with
        peerSequenceNumber := seqNum
        selfSequenceNumber := ch.selfSequenceNumber + 1 }, [MsgType.helloACK]⟩
  | Incoming.helloACK seqNum =>
    ⟨.ok (), { ch with
      peerSequenceNumber := seqNum
      state := StateId.sendingCommit
      selfSequenceNumber := ch.selfSequenceNumber + 1
      timerOn := true }, [MsgType.commit]⟩
  | Incoming.commitMsg m =>
    match parseCommitMsg env ch.peerHello m with
    | .error e => ⟨.error e, ch, []⟩
    | .ok _ =>
      bzrtp_turnIntoResponder env { ch with peerSequenceNumber := m.seqNum } m
  | _ => ⟨.error .unexpectedMessage, ch, []⟩

/-- Source: state_confirmation_responderSendingConfirm1 (stateMachine.c),
MESSAGE events. The DHPart2 arm's mode guard is the source's literal
(algo == Prsh) || (algo != Mult) — true in every DH mode — and the repetition
memcmp reads the junk bytes (missing packetString dereference), as in the other
repetition checks. -/
def stepResponderSendingConfirm1 (env : Env) (ch : Channel) (msg : Incoming) : StepRes :=
  match msg with
  | Incoming.commitMsg m =>
    if ch.keyAgreementAlgo ≠ KeyAgr.Prsh ∧ ch.keyAgreementAlgo ≠ KeyAgr.Mult then
      ⟨.error .unexpectedMessage, ch, []⟩
    else
      let n := (ch.peerCommit.map (fun c => c.body.length)).getD 0
      if m.body.take n ≠ env.junkCommit.take n then ⟨.error .unmatchingRepetition, ch, []⟩
      else
        ⟨.ok (), { ch with
          peerSequenceNumber := m.seqNum
          selfSequenceNumber := ch.selfSequenceNumber + 1 }, [MsgType.confirm1]⟩
  | Incoming.dhPart t m =>
    if t ≠ MsgType.dhpart2 then ⟨.error .unexpectedMessage, ch, []⟩
    else if ch.keyAgreementAlgo = KeyAgr.Prsh ∨ ch.keyAgreementAlgo ≠ KeyAgr.Mult then
      ⟨.error .unexpectedMessage, ch, []⟩
    else
      let n := (ch.peerDHPart.map (fun d => d.body.length)).getD 0
      if m.body.take n ≠ env.junkDHPart.take n then ⟨.error .unmatchingRepetition, ch, []⟩
      else
        ⟨.ok (), { ch with
          peerSequenceNumber := m.seqNum
          selfSequenceNumber := ch.selfSequenceNumber + 1 }, [MsgType.confirm1]⟩
  | Incoming.confirmMsg t m =>
    if t ≠ MsgType.confirm2 then ⟨.error .unexpectedMessage, ch, []⟩
    else
      match parseConfirmMsg env ch.keyAgreementAlgo ch.role ch.mackeyi ch.mackeyr
          ch.zrtpkeyi ch.zrtpkeyr ch.peerHello ch.peerCommit ch.peerDHPart m with
      | .error e => ⟨.error e, ch, []⟩
      | .ok p =>
        ⟨.ok (), { ch with
          peerH0 := p.H0
          peerConfirm := some m.body
          peerSequenceNumber := m.seqNum
          selfSequenceNumber := ch.selfSequenceNumber + 1
          state := StateId.secure
          isSecure := true }, [MsgType.conf2ACK]⟩
  | _ => ⟨.error .unexpectedMessage, ch, []⟩

/-! ## Theorems for claims C2 and C10 -/

/-- Claim C2 (confirmed). For a received Commit the parser fails with
UnmatchingHashChain exactly when SHA-256 of the revealed H2 differs from the H3
of the stored peer Hello, and with UnmatchingMAC exactly when the chain matches
but the 8-byte HMAC-SHA-256 over the stored Hello (MAC field excluded) keyed
with H2 differs from the stored MAC; for a received DHPart as responder, the
same with SHA-256(H1) against the stored peer Commit's H2 and that Commit's
MAC keyed with H1; as initiator, with SHA-256(SHA-256(H1)) against the stored
H3 and the Hello MAC keyed with SHA-256(H1); and when the parser fails, the
sendingCommit state returns the error unchanged: the channel does not advance. -/
theorem parser_hash_chain_and_mac_checks :
    (∀ (env : Env) (h : StoredHello) (m : CommitWire),
      (parseCommitMsg env (some h) m = Except.error Err.unmatchingHashChain
        ↔ env.sha256 m.H2 ≠ h.H3)
      ∧ (parseCommitMsg env (some h) m = Except.error Err.unmatchingMAC
        ↔ env.sha256 m.H2 = h.H3 ∧ env.hmacSha256 m.H2 (macedPart h.body) 8 ≠ h.MAC))
    ∧ (∀ (env : Env) (algo : KeyAgr) (sh : StoredHello) (ph : Option StoredHello)
        (c : StoredCommit) (t : MsgType) (m : DHPartWire),
        env.pvLen algo t ≠ 0 → m.messageLength = 84 + env.pvLen algo t →
        ((parseDHPartMsg env algo Role.responder ph (some c) sh t m
            = Except.error Err.unmatchingHashChain ↔ env.sha256 m.H1 ≠ c.H2)
        ∧ (parseDHPartMsg env algo Role.responder ph (some c) sh t m
            = Except.error Err.unmatchingMAC
          ↔ env.sha256 m.H1 = c.H2 ∧ env.hmacSha256 m.H1 (macedPart c.body) 8 ≠ c.MAC)))
    ∧ (∀ (env : Env) (algo : KeyAgr) (sh h : StoredHello) (pc : Option StoredCommit)
        (t : MsgType) (m : DHPartWire),
        env.pvLen algo t ≠ 0 → m.messageLength = 84 + env.pvLen algo t →
        ((parseDHPartMsg env algo Role.initiator (some h) pc sh t m
            = Except.error Err.unmatchingHashChain
          ↔ env.sha256 (env.sha256 m.H1) ≠ h.H3)
        ∧ (parseDHPartMsg env algo Role.initiator (some h) pc sh t m
            = Except.error Err.unmatchingMAC
          ↔ env.sha256 (env.sha256 m.H1) = h.H3
            ∧ env.hmacSha256 (env.sha256 m.H1) (macedPart h.body) 8 ≠ h.MAC)))
    ∧ (∀ (env : Env) (ch : Channel) (m : CommitWire) (e : Err),
        parseCommitMsg env ch.peerHello m = Except.error e →
        stepSendingCommit env ch (Incoming.commitMsg m) = ⟨Except.error e, ch, []⟩) := by
  refine ⟨?_, ?_, ?_, ?_⟩
  · intro env h m
    constructor <;>
    · unfold parseCommitMsg
      by_cases h1 : env.sha256 m.H2 = h.H3 <;>
        by_cases h2 : env.hmacSha256 m.H2 (macedPart h.body) 8 = h.MAC <;>
        by_cases h3 : env.vlen m.keyAgreementAlgo = 0 <;>
        by_cases h4 : m.messageLength = 84 + env.vlen m.keyAgreementAlgo <;>
        simp [h1, h2, h3, h4]
  · intro env algo sh ph c t m hpv hlen
    constructor <;>
    · unfold parseDHPartMsg
      by_cases h1 : env.sha256 m.H1 = c.H2 <;>
        by_cases h2 : env.hmacSha256 m.H1 (macedPart c.body) 8 = c.MAC <;>
        by_cases h3 : env.hashFn (m.body ++ sh.body) 32 = c.hvi <;>
        simp [hpv, hlen, h1, h2, h3]
  · intro env algo sh h pc t m hpv hlen
    constructor <;>
    · unfold parseDHPartMsg
      by_cases h1 : env.sha256 (env.sha256 m.H1) = h.H3 <;>
        by_cases h2 : env.hmacSha256 (env.sha256 m.H1) (macedPart h.body) 8 = h.MAC <;>
        simp [hpv, hlen, h1, h2]
  · intro env ch m e hp
    unfold stepSendingCommit
    simp only [hp]

/-- Witness for C2 at concrete inputs: a commit whose H2 hashes to something
other than the stored H3 is rejected with UnmatchingHashChain, and a responder
DHPart whose MAC image differs is rejected with UnmatchingMAC. -/
theorem parser_hash_chain_and_mac_checks_witness :
    parseCommitMsg
      { sha256 := fun _ => [1], hmacSha256 := fun _ _ _ => [2],
        hashFn := fun _ _ => [], hmacFn := fun _ _ _ => [],
        decrypt := fun _ _ c => c, kdf := fun _ _ _ _ => [],
        vlen := fun _ => 1, pvLen := fun _ _ => 1, dhCompute := fun _ => [],
        junkHello := [], junkCommit := [], junkDHPart := [], junkConfirm := [] }
      (some ⟨[0], [9], [2], false⟩)
      ⟨0, 85, [], [7], [], 0, 0, 0, KeyAgr.DH3k, 0, [], [], [], [], []⟩
      = Except.error Err.unmatchingHashChain := by
  have h := parser_hash_chain_and_mac_checks.1
    { sha256 := fun _ => [1], hmacSha256 := fun _ _ _ => [2],
      hashFn := fun _ _ => [], hmacFn := fun _ _ _ => [],
      decrypt := fun _ _ c => c, kdf := fun _ _ _ _ => [],
      vlen := fun _ => 1, pvLen := fun _ _ => 1, dhCompute := fun _ => [],
      junkHello := [], junkCommit := [], junkDHPart := [], junkConfirm := [] }
    ⟨[0], [9], [2], false⟩
    ⟨0, 85, [], [7], [], 0, 0, 0, KeyAgr.DH3k, 0, [], [], [], [], []⟩
  exact (h.1).mpr (by decide)

/-- Claim C10 (confirmed). When the prerequisite stored peer packet is missing —
the peer Hello for a Commit, the peer Commit for a DHPart received as responder
or a Confirm received as responder in Preshared/Multistream mode, the peer
DHPart for a Confirm in DH mode — the parser returns the Unexpected-message
error. Every conjunct holds for an arbitrary environment, so the result does
not depend on the SHA-256 / HMAC-SHA-256 primitives: no hash-chain or MAC
verification takes place; and an error result attaches no message structure. -/
theorem parser_missing_prerequisite_unexpected :
    (∀ (env : Env) (m : CommitWire),
      parseCommitMsg env none m = Except.error Err.unexpectedMessage)
    ∧ (∀ (env : Env) (algo : KeyAgr) (sh : StoredHello) (ph : Option StoredHello)
        (t : MsgType) (m : DHPartWire),
        env.pvLen algo t ≠ 0 → m.messageLength = 84 + env.pvLen algo t →
        parseDHPartMsg env algo Role.responder ph none sh t m
          = Except.error Err.unexpectedMessage)
    ∧ (∀ (env : Env) (algo : KeyAgr) (ph : Option StoredHello) (pd : Option StoredDHPart)
        (mkr zkr : Option Bytes) (ki mki : Bytes) (m : ConfirmWire),
        (algo = KeyAgr.Prsh ∨ algo = KeyAgr.Mult) →
        env.hmacFn mki m.ciphertext 8 = m.confirmMac →
        parseConfirmMsg env algo Role.responder (some mki) mkr (some ki) zkr ph none pd m
          = Except.error Err.unexpectedMessage)
    ∧ (∀ (env : Env) (algo : KeyAgr) (ph : Option StoredHello) (pc : Option StoredCommit)
        (mki zki : Option Bytes) (kr mkr : Bytes) (m : ConfirmWire),
        algo ≠ KeyAgr.Prsh → algo ≠ KeyAgr.Mult →
        env.hmacFn mkr m.ciphertext 8 = m.confirmMac →
        parseConfirmMsg env algo Role.initiator mki (some mkr) zki (some kr) ph pc none m
          = Except.error Err.unexpectedMessage) := by
  refine ⟨?_, ?_, ?_, ?_⟩
  · intro env m
    rfl
  · intro env algo sh ph t m hpv hlen
    unfold parseDHPartMsg
    simp [hpv, hlen]
  · intro env algo ph pd mkr zkr ki mki m halgo hmac
    rcases halgo with h | h <;> subst h <;>
      · unfold parseConfirmMsg
        simp [hmac]
  · intro env algo ph pc mki zki kr mkr m h1 h2 hmac
    unfold parseConfirmMsg
    simp [hmac, h1, h2]

/-- Witness for C10 at concrete inputs: the responder-DHPart and the two
Confirm conjuncts applied with their hypotheses discharged. -/
theorem parser_missing_prerequisite_unexpected_witness :
    parseDHPartMsg
      { sha256 := fun _ => [1], hmacSha256 := fun _ _ _ => [2],
        hashFn := fun _ _ => [], hmacFn := fun _ _ _ => [3],
        decrypt := fun _ _ c => c, kdf := fun _ _ _ _ => [],
        vlen := fun _ => 1, pvLen := fun _ _ => 1, dhCompute := fun _ => [],
        junkHello := [], junkCommit := [], junkDHPart := [], junkConfirm := [] }
      KeyAgr.DH3k Role.responder none none ⟨[0], [9], [2], false⟩ MsgType.dhpart2
      ⟨0, 85, [], [7], [], [], [], [], [], []⟩
      = Except.error Err.unexpectedMessage
    ∧ parseConfirmMsg
      { sha256 := fun _ => [1], hmacSha256 := fun _ _ _ => [2],
        hashFn := fun _ _ => [], hmacFn := fun _ _ _ => [3],
        decrypt := fun _ _ c => c, kdf := fun _ _ _ _ => [],
        vlen := fun _ => 1, pvLen := fun _ _ => 1, dhCompute := fun _ => [],
        junkHello := [], junkCommit := [], junkDHPart := [], junkConfirm := [] }
      KeyAgr.Mult Role.responder (some [5]) none (some [6]) none none none none
      ⟨0, 76, [], [3], [], []⟩
      = Except.error Err.unexpectedMessage
    ∧ parseConfirmMsg
      { sha256 := fun _ => [1], hmacSha256 := fun _ _ _ => [2],
        hashFn := fun _ _ => [], hmacFn := fun _ _ _ => [3],
        decrypt := fun _ _ c => c, kdf := fun _ _ _ _ => [],
        vlen := fun _ => 1, pvLen := fun _ _ => 1, dhCompute := fun _ => [],
        junkHello := [], junkCommit := [], junkDHPart := [], junkConfirm := [] }
      KeyAgr.DH3k Role.initiator none (some [5]) none (some [6]) none none none
      ⟨0, 76, [], [3], [], []⟩
      = Except.error Err.unexpectedMessage := by
  refine ⟨?_, ?_, ?_⟩
  · exact parser_missing_prerequisite_unexpected.2.1 _ KeyAgr.DH3k _ none MsgType.dhpart2 _
      (by decide) (by decide)
  · exact parser_missing_prerequisite_unexpected.2.2.1 _ KeyAgr.Mult none none none none
      [6] [5] _ (by decide) (by decide)
  · exact parser_missing_prerequisite_unexpected.2.2.2 _ KeyAgr.DH3k none none none none
      [6] [5] _ (by decide) (by decide) (by decide)

/-! ## Theorems for claims C3, C4, C5, C6 -/

/-- On two Commits carrying the same key-agreement algorithm and with no MiTM
flag in play, the contention outcome is decided by the memcmp of the nonces
(Preshared/Multistream) or of the hvis (DH modes): lower goes responder. -/
theorem commitContention_same_algo (sc : SelfCommit) (m : CommitWire) (selfM peerM : Bool)
    (halgo : m.keyAgreementAlgo = sc.keyAgreementAlgo)
    (hmitm : ¬(m.keyAgreementAlgo = KeyAgr.Prsh ∧ (selfM = true ∨ peerM = true))) :
    commitContention Role.initiator sc m selfM peerM =
      (if (if sc.keyAgreementAlgo = KeyAgr.Prsh ∨ sc.keyAgreementAlgo = KeyAgr.Mult
            then memcmpLt sc.nonce m.nonce else memcmpLt sc.hvi m.hvi) = true
        then Role.responder else Role.initiator) := by
  rw [halgo] at hmitm
  unfold commitContention
  rw [halgo]
  simp only [ne_eq, not_true_eq_false, if_neg, if_false]
  simp [hmitm]
  by_cases h : sc.keyAgreementAlgo = KeyAgr.Prsh ∨ sc.keyAgreementAlgo = KeyAgr.Mult <;>
    simp [h]

/-- Field effects of bzrtp_turnIntoResponder: role switched, stored self Commit
untouched, target state decided by the peer Commit's mode, and in presence of a
pre-built self DHPart the packet is rebuilt as a DHPart1 with the responder
cached-secret IDs while the auxiliary-secret IDs are swapped. -/
theorem turnIntoResponder_fields (env : Env) (ch : Channel) (m : CommitWire) :
    (bzrtp_turnIntoResponder env ch m).ch.role = Role.responder
    ∧ (bzrtp_turnIntoResponder env ch m).ch.selfCommit = ch.selfCommit
    ∧ (bzrtp_turnIntoResponder env ch m).ch.state =
        (if m.keyAgreementAlgo = KeyAgr.Prsh ∨ m.keyAgreementAlgo = KeyAgr.Mult
          then StateId.responderSendingConfirm1 else StateId.responderSendingDHPart1)
    ∧ (∀ d, ch.selfDHPart = some d →
        (bzrtp_turnIntoResponder env ch m).ch.selfDHPart = some { d with
          messageType := MsgType.dhpart1
          rs1ID := ch.responderSecretIDs.rs1ID
          rs2ID := ch.responderSecretIDs.rs2ID
          auxsecretID := ch.initiatorAuxsecretID
          pbxsecretID := ch.responderSecretIDs.pbxsecretID }
        ∧ (bzrtp_turnIntoResponder env ch m).ch.initiatorAuxsecretID
            = ch.responderAuxsecretID
        ∧ (bzrtp_turnIntoResponder env ch m).ch.responderAuxsecretID
            = ch.initiatorAuxsecretID) := by
  unfold bzrtp_turnIntoResponder
  cases hsd : ch.selfDHPart with
  | none =>
      by_cases halgo : m.keyAgreementAlgo = KeyAgr.Prsh ∨ m.keyAgreementAlgo = KeyAgr.Mult
      · simp only [hsd, halgo, if_pos]
        unfold initResponderSendingConfirm1 bzrtp_computeS0MultiStreamMode
          bzrtp_deriveKeysFromS0
        rcases halgo with h | h <;> simp [h] <;>
          by_cases hz : ch.zrtpSess = none <;> simp [hz, zidInitiatorOf, zidResponderOf]
      · simp only [hsd, halgo, if_neg]
        unfold initResponderSendingDHPart1
        simp [halgo, hsd]
  | some d =>
      by_cases halgo : m.keyAgreementAlgo = KeyAgr.Prsh ∨ m.keyAgreementAlgo = KeyAgr.Mult
      · simp only [hsd, halgo, if_pos]
        unfold initResponderSendingConfirm1 bzrtp_computeS0MultiStreamMode
          bzrtp_deriveKeysFromS0
        rcases halgo with h | h <;> simp [h] <;>
          by_cases hz : ch.zrtpSess = none <;> simp [hz, zidInitiatorOf, zidResponderOf]
      · simp only [hsd, halgo, if_neg]
        unfold initResponderSendingDHPart1
        simp [halgo, hsd]

/-- The value this side contends with: the 16-byte nonce for Preshared and
Multistream, the 32-byte hvi for DH modes. -/
def contendValSelf (sc : SelfCommit) : Bytes :=
  if sc.keyAgreementAlgo = KeyAgr.Prsh ∨ sc.keyAgreementAlgo = KeyAgr.Mult then sc.nonce
  else sc.hvi

/-- The value of the peer's Commit compared during contention (same selection,
the two Commits carrying the same algorithm). -/
def contendValPeer (sc : SelfCommit) (m : CommitWire) : Bytes :=
  if sc.keyAgreementAlgo = KeyAgr.Prsh ∨ sc.keyAgreementAlgo = KeyAgr.Mult then m.nonce
  else m.hvi

/-- Claim C3, amended (corrected): when both sides have sent a Commit carrying
the same key-agreement algorithm (rather than merely Commits of the same kind)
and no MiTM flag is involved, the side whose 32-byte hvi (DH modes) or 16-byte
nonce (Preshared/Multistream), read as a big-endian unsigned integer, is lower
becomes responder: it discards its own Commit packet, and for DH modes rebuilds
its pre-built DHPart2 into a DHPart1 carrying the responder cached-secret IDs
with the initiator/responder auxiliary-secret IDs swapped, before transitioning
to the responder branch; otherwise it stays initiator with its Commit kept and
its state unchanged. -/
theorem commit_contention_lower_value_same_algo
    (env : Env) (ch : Channel) (m : CommitWire) (sc : SelfCommit)
    (hself : ch.selfCommit = some sc)
    (hrole : ch.role = Role.initiator)
    (hparse : parseCommitMsg env ch.peerHello m = Except.ok m)
    (halgo : m.keyAgreementAlgo = sc.keyAgreementAlgo)
    (hmitm : ¬(m.keyAgreementAlgo = KeyAgr.Prsh ∧
      (ch.selfHello.mFlag = true ∨ (ch.peerHello.map (fun h => h.mFlag)).getD false = true)))
    (hlen : (contendValSelf sc).length = (contendValPeer sc m).length)
    (hsb : ∀ x ∈ contendValSelf sc, x < 256)
    (hpb : ∀ x ∈ contendValPeer sc m, x < 256) :
    (beVal (contendValSelf sc) < beVal (contendValPeer sc m) →
      (stepSendingCommit env ch (Incoming.commitMsg m)).ch.role = Role.responder
      ∧ (stepSendingCommit env ch (Incoming.commitMsg m)).ch.selfCommit = none
      ∧ (stepSendingCommit env ch (Incoming.commitMsg m)).ch.state =
          (if sc.keyAgreementAlgo = KeyAgr.Prsh ∨ sc.keyAgreementAlgo = KeyAgr.Mult
            then StateId.responderSendingConfirm1 else StateId.responderSendingDHPart1)
      ∧ (∀ d, ch.selfDHPart = some d →
          (stepSendingCommit env ch (Incoming.commitMsg m)).ch.selfDHPart = some { d with
            messageType := MsgType.dhpart1
            rs1ID := ch.responderSecretIDs.rs1ID
            rs2ID := ch.responderSecretIDs.rs2ID
            auxsecretID := ch.initiatorAuxsecretID
            pbxsecretID := ch.responderSecretIDs.pbxsecretID }
          ∧ (stepSendingCommit env ch (Incoming.commitMsg m)).ch.initiatorAuxsecretID
              = ch.responderAuxsecretID
          ∧ (stepSendingCommit env ch (Incoming.commitMsg m)).ch.responderAuxsecretID
              = ch.initiatorAuxsecretID))
    ∧ (beVal (contendValPeer sc m) ≤ beVal (contendValSelf sc) →
      (stepSendingCommit env ch (Incoming.commitMsg m)).ch.role = Role.initiator
      ∧ (stepSendingCommit env ch (Incoming.commitMsg m)).ch.state = ch.state
      ∧ (stepSendingCommit env ch (Incoming.commitMsg m)).ch.selfCommit = some sc
      ∧ (stepSendingCommit env ch (Incoming.commitMsg m)).ret = Except.ok ()) := by
  have hcmp : memcmpLt (contendValSelf sc) (contendValPeer sc m) = true ↔
      beVal (contendValSelf sc) < beVal (contendValPeer sc m) :=
    memcmpLt_iff_beVal_lt _ _ hlen hsb hpb
  have hcont : commitContention ch.role sc m ch.selfHello.mFlag
      ((ch.peerHello.map (fun h => h.mFlag)).getD false) =
      (if memcmpLt (contendValSelf sc) (contendValPeer sc m) = true
        then Role.responder else Role.initiator) := by
    rw [hrole, commitContention_same_algo sc m _ _ halgo hmitm]
    unfold contendValSelf contendValPeer
    by_cases h : sc.keyAgreementAlgo = KeyAgr.Prsh ∨ sc.keyAgreementAlgo = KeyAgr.Mult <;>
      simp [h]
  constructor
  · intro hlt
    have hmem : memcmpLt (contendValSelf sc) (contendValPeer sc m) = true := hcmp.mpr hlt
    have hstep : stepSendingCommit env ch (Incoming.commitMsg m) =
        bzrtp_turnIntoResponder env
          { ch with
            peerSequenceNumber := m.seqNum
            role := Role.responder
            selfCommit := none } m := by
      unfold stepSendingCommit
      simp only [hparse, hself, hcont, hmem]
      simp
    obtain ⟨f1, f2, f3, f4⟩ := turnIntoResponder_fields env
      { ch with
        peerSequenceNumber := m.seqNum
        role := Role.responder
        selfCommit := none } m
    rw [hstep]
    refine ⟨f1, f2.trans rfl, ?_, ?_⟩
    · rw [f3, halgo]
    · intro d hd
      obtain ⟨g1, g2, g3⟩ := f4 d hd
      exact ⟨g1, g2, g3⟩
  · intro hge
    have hmem : memcmpLt (contendValSelf sc) (contendValPeer sc m) = false := by
      rcases hb : memcmpLt (contendValSelf sc) (contendValPeer sc m) with _ | _
      · rfl
      · exact absurd (hcmp.mp hb) (Nat.not_lt.mpr hge)
    have hstep : stepSendingCommit env ch (Incoming.commitMsg m) =
        ⟨Except.ok (), { ch with peerSequenceNumber := m.seqNum }, []⟩ := by
      unfold stepSendingCommit
      simp only [hparse, hself, hcont, hmem]
      simp
    rw [hstep]
    exact ⟨hrole, rfl, hself, rfl⟩

/-! ## Concrete fixtures used by the evaluation theorems -/

/-- Toy environment: constant primitives chosen so that the stored fixtures
verify (peer hash images hash to 3-bytes, MACs to 4-bytes); the public-value
length is zero for the modes without a public value, 1 otherwise; the junk
bytes the repetition checks actually read differ from every stored body. -/
def baseEnv : Env where
  sha256 := fun _ => List.replicate 32 3
  hmacSha256 := fun _ _ _ => List.replicate 8 4
  hashFn := fun _ n => List.replicate n 5
  hmacFn := fun _ _ n => List.replicate n 6
  decrypt := fun _ _ c => c
  kdf := fun _ _ _ n => List.replicate n 7
  vlen := fun _ => 1
  pvLen := fun a _ => if a = KeyAgr.Prsh ∨ a = KeyAgr.Mult then 0 else 1
  dhCompute := fun _ => List.replicate 4 8
  junkHello := [9, 9]
  junkCommit := [9, 9]
  junkDHPart := [9, 9]
  junkConfirm := [9, 9]

/-- Base concrete channel: an initiator in the sendingCommit state, DH-3072
agreed, peer Hello stored, no cached secrets. -/
def baseChannel : Channel where
  state := StateId.sendingCommit
  role := Role.initiator
  keyAgreementAlgo := KeyAgr.DH3k
  hashAlgo := 0
  cipherAlgo := 0
  authTagAlgo := 0
  sasAlgo := 0
  timerOn := true
  selfSequenceNumber := 10
  peerSequenceNumber := 5
  selfHello := ⟨List.replicate 80 2, List.replicate 32 3, List.replicate 8 4, false⟩
  selfCommit := none
  selfDHPart := none
  selfConfirmStored := false
  peerHello := some ⟨List.replicate 80 1, List.replicate 32 3, List.replicate 8 4, false⟩
  peerCommit := none
  peerDHPart := none
  peerConfirm := none
  peerH0 := []
  peerH1 := []
  peerH2 := []
  peerH3 := List.replicate 32 3
  initiatorAuxsecretID := List.replicate 8 10
  responderAuxsecretID := List.replicate 8 11
  initiatorSecretIDs := ⟨List.replicate 8 12, List.replicate 8 13, List.replicate 8 14⟩
  responderSecretIDs := ⟨List.replicate 8 15, List.replicate 8 16, List.replicate 8 17⟩
  rs1 := none
  rs2 := none
  auxsecret := none
  pbxsecret := none
  mackeyi := none
  mackeyr := none
  zrtpkeyi := none
  zrtpkeyr := none
  s0 := none
  kdfContext := []
  zrtpSess := none
  hashLength := 32
  cipherKeyLength := 16
  selfZID := List.replicate 12 20
  peerZID := List.replicate 12 21
  dhResult := []
  isSecure := false

/-- Concrete incoming DH-3072 Commit whose hvi is 0...01 (value 1). -/
def commitWireDH3k : CommitWire where
  seqNum := 6
  messageLength := 85
  body := List.replicate 85 30
  H2 := List.replicate 32 31
  ZID := List.replicate 12 21
  hashAlgo := 0
  cipherAlgo := 0
  authTagAlgo := 0
  keyAgreementAlgo := KeyAgr.DH3k
  sasAlgo := 0
  nonce := List.replicate 16 0
  keyID := []
  hvi := List.replicate 31 0 ++ [1]
  pv := []
  MAC := List.replicate 8 32

/-- Channel holding a self Commit for DH-2048 with an all-zero hvi (value 0). -/
def chC3x : Channel :=
  { baseChannel with
    selfCommit := some ⟨KeyAgr.DH2k, List.replicate 32 0, List.replicate 16 0,
      List.replicate 85 40⟩ }

/-- Channel holding a self Commit for DH-3072 with an all-zero hvi (value 0). -/
def chC3w : Channel :=
  { baseChannel with
    selfCommit := some ⟨KeyAgr.DH3k, List.replicate 32 0, List.replicate 16 0,
      List.replicate 85 40⟩
    selfDHPart := some ⟨MsgType.dhpart2, List.replicate 8 12, List.replicate 8 13,
      List.replicate 8 10, List.replicate 8 14, List.replicate 85 41⟩ }

/-- Claim C3 counterexample: both Commits are of DH kind (self DH-2048, peer
DH-3072), no MiTM flag is set, and the self hvi (value 0) is lower than the
peer hvi (value 1) as big-endian unsigned integers, yet the channel keeps the
initiator role, keeps its own Commit, and stays in sendingCommit: the source
compares hvi/nonce only when the two Commits carry the same key-agreement
algorithm, not merely the same kind. -/
theorem commit_contention_claim_counterexample :
    beVal (List.replicate 32 0) < beVal (List.replicate 31 0 ++ [1])
    ∧ (stepSendingCommit baseEnv chC3x (Incoming.commitMsg commitWireDH3k)).ch.role
        = Role.initiator
    ∧ (stepSendingCommit baseEnv chC3x (Incoming.commitMsg commitWireDH3k)).ch.state
        = StateId.sendingCommit
    ∧ (stepSendingCommit baseEnv chC3x (Incoming.commitMsg commitWireDH3k)).ch.selfCommit
        ≠ none
    ∧ (stepSendingCommit baseEnv chC3x (Incoming.commitMsg commitWireDH3k)).ret
        = Except.ok () := by
  refine ⟨by decide, by decide, by decide, by decide, by decide⟩

/-- Witness for the amended C3 at concrete inputs: same algorithm (DH-3072) on
both Commits, self hvi lower; the channel turns responder, discards its Commit,
heads to responderSendingDHPart1 and rebuilds its DHPart2 as a DHPart1. -/
theorem commit_contention_lower_value_same_algo_witness :
    (stepSendingCommit baseEnv chC3w (Incoming.commitMsg commitWireDH3k)).ch.role
      = Role.responder
    ∧ (stepSendingCommit baseEnv chC3w (Incoming.commitMsg commitWireDH3k)).ch.selfCommit
      = none
    ∧ (stepSendingCommit baseEnv chC3w (Incoming.commitMsg commitWireDH3k)).ch.state
      = StateId.responderSendingDHPart1 := by
  have h := commit_contention_lower_value_same_algo baseEnv chC3w commitWireDH3k
    ⟨KeyAgr.DH3k, List.replicate 32 0, List.replicate 16 0, List.replicate 85 40⟩
    (by decide) (by decide) (by decide) (by decide) (by decide)
    (by decide) (by decide) (by decide)
  obtain ⟨h1, h2, h3, _⟩ := h.1 (by decide)
  refine ⟨h1, h2, ?_⟩
  rw [h3]
  decide

/-- Channel of claim C4: waiting for HelloACK with the peer Hello stored. -/
def chC4 : Channel := { baseChannel with state := StateId.waitingForHelloAck }

/-- Claim C4 (code_bug evidence): a byte-identical repetition of the stored
peer Hello (the stored body is replicate 80 1 and the incoming message body is
the same) is rejected with UnmatchingRepetition instead of being answered with
a HelloACK: the memcmp's second operand is peerPackets[HELLO]+12 without the
packetString dereference, unspecified bytes rather than the stored message. -/
theorem repeated_identical_hello_rejected :
    stepWaitingForHelloAck baseEnv chC4 (Incoming.helloMsg 6 (List.replicate 80 1))
      = ⟨Except.error Err.unmatchingRepetition, chC4, []⟩
    ∧ (chC4.peerHello.map (fun h => h.body)) = some (List.replicate 80 1) := by
  refine ⟨by decide, by decide⟩

/-- Channel of claim C5: a DH-3072 responder in responderSendingConfirm1 with
the peer Commit and peer DHPart stored and its Confirm1 built. -/
def chC5 : Channel :=
  { baseChannel with
    state := StateId.responderSendingConfirm1
    role := Role.responder
    peerCommit := some ⟨List.replicate 85 30, List.replicate 32 31, List.replicate 8 32,
      List.replicate 32 33⟩
    peerDHPart := some ⟨List.replicate 85 50, List.replicate 32 51, List.replicate 8 52⟩
    selfConfirmStored := true }

/-- Incoming DHPart2 identical to the stored peer DHPart of chC5. -/
def dhPartWireC5 : DHPartWire where
  seqNum := 6
  messageLength := 85
  body := List.replicate 85 50
  H1 := List.replicate 32 51
  rs1ID := List.replicate 8 0
  rs2ID := List.replicate 8 0
  auxsecretID := List.replicate 8 0
  pbxsecretID := List.replicate 8 0
  pv := []
  MAC := List.replicate 8 52

/-- Claim C5 (code_bug evidence): in responderSendingConfirm1 with a DH mode in
effect, a repeated DHPart2 (even byte-identical to the stored one) is rejected
with the Unexpected-message error and nothing is resent: the mode guard is
(algo == Prsh) || (algo != Mult), true in every DH mode, where the comment and
the claim require rejecting only the non-DH modes. -/
theorem dhpart2_repetition_rejected_in_dh_mode :
    chC5.keyAgreementAlgo = KeyAgr.DH3k
    ∧ stepResponderSendingConfirm1 baseEnv chC5 (Incoming.dhPart MsgType.dhpart2 dhPartWireC5)
      = ⟨Except.error Err.unexpectedMessage, chC5, []⟩ := by
  refine ⟨by decide, by decide⟩

/-- Channel of claim C6 in Multistream mode. -/
def chC6m : Channel := { baseChannel with keyAgreementAlgo := KeyAgr.Mult }

/-- Channel of claim C6 in Preshared mode. -/
def chC6p : Channel := { baseChannel with keyAgreementAlgo := KeyAgr.Prsh }

/-- Incoming DHPart1 used by claim C6. -/
def dhPartWireC6 : DHPartWire where
  seqNum := 6
  messageLength := 85
  body := List.replicate 85 60
  H1 := List.replicate 32 61
  rs1ID := List.replicate 8 0
  rs2ID := List.replicate 8 0
  auxsecretID := List.replicate 8 0
  pbxsecretID := List.replicate 8 0
  pv := []
  MAC := List.replicate 8 62

/-- Claim C6 (code_bug evidence): in sendingCommit the guard that should reject
a DHPart1 outside DH modes tests (algo == Prsh) || (algo == Prsh), so in
Multistream mode the DHPart1 is not rejected with the Unexpected-message error:
it slips past the guard into DHPart parsing (failing there with InvalidContext
because Multistream has no public value), while in Preshared mode the guard
does fire. -/
theorem mult_dhpart1_not_rejected_as_unexpected :
    stepSendingCommit baseEnv chC6m (Incoming.dhPart MsgType.dhpart1 dhPartWireC6)
      = ⟨Except.error Err.invalidContext, chC6m, []⟩
    ∧ (Except.error Err.invalidContext : Except Err Unit) ≠ Except.error Err.unexpectedMessage
    ∧ stepSendingCommit baseEnv chC6p (Incoming.dhPart MsgType.dhpart1 dhPartWireC6)
      = ⟨Except.error Err.unexpectedMessage, chC6p, []⟩ := by
  refine ⟨by decide, by decide, by decide⟩

/-! ## Claim C7: bzrtp_packetCheck (packetParser.c), byte level -/

/-- The single fragment-reassembly slot of a channel: current message id, its
total length in 32-bit words, the pre-allocated buffer (packet header space
included) and the list of (offset, length) pairs, in words, already received. -/
structure FragSlot where
  messageId : Nat
  messageLength : Nat
  buffer : Bytes
  fragments : List (Nat × Nat)
  deriving DecidableEq, Repr

/-- The channel state consulted and updated by bzrtp_packetCheck. -/
structure CodecState where
  peerSequenceNumber : Nat
  frag : FragSlot
  deriving DecidableEq, Repr

/-- Header data of a checked packet, handed to the message parser along with
the (possibly reassembled) packet bytes. -/
structure PacketHead where
  sequenceNumber : Nat
  messageLength : Nat
  messageType : MsgType
  sourceIdentifier : Nat
  assembled : Bytes
  deriving DecidableEq, Repr

/-- Outcome of bzrtp_packetCheck: an error or informational code, or a packet
structure for the message parser. -/
inductive CheckOutcome where
  | err (e : Err)
  | ok (head : PacketHead)
  deriving DecidableEq, Repr

/-- Mapping of the 8 ASCII bytes of a message type to its code
(messageTypeStringtoInt). -/
def msgTypeOfBytes (b : Bytes) : Option MsgType :=
  if b = [72, 101, 108, 108, 111, 32, 32, 32] then some MsgType.hello
  else if b = [72, 101, 108, 108, 111, 65, 67, 75] then some MsgType.helloACK
  else if b = [67, 111, 109, 109, 105, 116, 32, 32] then some MsgType.commit
  else if b = [68, 72, 80, 97, 114, 116, 49, 32] then some MsgType.dhpart1
  else if b = [68, 72, 80, 97, 114, 116, 50, 32] then some MsgType.dhpart2
  else if b = [67, 111, 110, 102, 105, 114, 109, 49] then some MsgType.confirm1
  else if b = [67, 111, 110, 102, 105, 114, 109, 50] then some MsgType.confirm2
  else if b = [67, 111, 110, 102, 50, 65, 67, 75] then some MsgType.conf2ACK
  else if b = [69, 114, 114, 111, 114, 32, 32, 32] then some MsgType.errorMsg
  else if b = [69, 114, 114, 111, 114, 65, 67, 75] then some MsgType.errorACK
  else if b = [71, 111, 67, 108, 101, 97, 114, 32] then some MsgType.goclear
  else if b = [67, 108, 101, 97, 114, 65, 67, 75] then some MsgType.clearACK
  else if b = [83, 65, 83, 114, 101, 108, 97, 121] then some MsgType.sasrelay
  else if b = [82, 101, 108, 97, 121, 65, 67, 75] then some MsgType.relayACK
  else if b = [80, 105, 110, 103, 32, 32, 32, 32] then some MsgType.ping
  else if b = [80, 105, 110, 103, 65, 67, 75, 32] then some MsgType.pingACK
  else none

/-- Length-preserving write of src into buf starting at byte position pos
(the memcpy into the pre-allocated reassembly buffer; bytes past the buffer
end are dropped, where the C would overflow). -/
def writeBytesAt (buf : Bytes) (pos : Nat) (src : Bytes) : Bytes :=
  (List.range buf.length).map (fun i =>
    if pos ≤ i ∧ i < pos + src.length then src.getD (i - pos) 0 else buf.getD i 0)

/-- Result of walking the fragment list as the C while loop does. -/
structure InsertRes where
  fragments : List (Nat × Nat)
  inserted : Bool
  copied : Bool
  deriving DecidableEq, Repr

/-- The while loop over the fragment list: insert before the first entry with a
larger offset (and copy the data), do nothing on an entry with the same offset,
otherwise keep walking. -/
def insertFragInfo : List (Nat × Nat) → Nat → Nat → InsertRes
  | [], _, _ => ⟨[], false, false⟩
  | (o, l) :: rest, off, len =>
    if off < o then ⟨(off, len) :: (o, l) :: rest, true, true⟩
    else if off = o then ⟨(o, l) :: rest, true, false⟩
    else
      let r := insertFragInfo rest off len
      ⟨(o, l) :: r.fragments, r.inserted, r.copied⟩

/-- Merge one arriving fragment into the slot: walk the list; when the loop did
not insert, append at the end; the data is copied into the buffer at
header + 4*offset except in the duplicate case. -/
def mergeFragment (slot : FragSlot) (off len : Nat) (data : Bytes) : FragSlot :=
  let r := insertFragInfo slot.fragments off len
  { slot with
    fragments := if r.inserted then r.fragments else slot.fragments ++ [(off, len)]
    buffer := if r.copied ∨ r.inserted = false
      then writeBytesAt slot.buffer (12 + 4 * off) data
      else slot.buffer }

/-- Fragment header field: message id (bytes 12-13). -/
def fragMessageId (input : Bytes) : Nat := be16 (input.getD 12 0) (input.getD 13 0)

/-- Fragment header field: total message length in words (bytes 14-15). -/
def fragTotalLength (input : Bytes) : Nat := be16 (input.getD 14 0) (input.getD 15 0)

/-- Fragment header field: offset in words (bytes 16-17). -/
def fragOffset (input : Bytes) : Nat := be16 (input.getD 16 0) (input.getD 17 0)

/-- Fragment header field: fragment length in words (bytes 18-19). -/
def fragLength (input : Bytes) : Nat := be16 (input.getD 18 0) (input.getD 19 0)

/-- The fragment payload: everything between the 20-byte fragmented header and
the 4 CRC bytes. -/
def fragData (input : Bytes) : Bytes := (input.drop 20).take (input.length - 24)

/-- The freshly allocated reassembly slot started by a new, higher message id:
empty fragment list, buffer of packet overhead (16) plus the total message
length in bytes (the malloc is modelled as zero-filled). -/
def freshSlot (input : Bytes) : FragSlot :=
  ⟨fragMessageId input, fragTotalLength input,
    List.replicate (16 + 4 * fragTotalLength input) 0, []⟩

/-- The reassembly slot after accepting the arriving fragment: a strictly
higher message id first discards the old slot. -/
def slotAfter (st : CodecState) (input : Bytes) : FragSlot :=
  mergeFragment
    (if st.frag.messageId < fragMessageId input then freshSlot input else st.frag)
    (fragOffset input) (fragLength input) (fragData input)

/-- Total of the recorded fragment lengths (in words). -/
def sumFragLengths (l : List (Nat × Nat)) : Nat := (l.map (fun p => p.snd)).sum

/-- Message-header stage of bzrtp_packetCheck, applied to the original or the
reassembled packet bytes: preamble 0x50 0x5a, length in words converted to
bytes, known message type, SSRC. -/
def packetCheckMessagePart (sequenceNumber : Nat) (input : Bytes) (st : CodecState) :
    CheckOutcome × CodecState :=
  if input.getD 12 0 ≠ 80 ∨ input.getD 13 0 ≠ 90 then
    (CheckOutcome.err Err.invalidMessage, st)
  else
    match msgTypeOfBytes ((input.drop 16).take 8) with
    | none => (CheckOutcome.err Err.invalidMessage, st)
    | some t =>
      (CheckOutcome.ok ⟨sequenceNumber, 4 * be16 (input.getD 14 0) (input.getD 15 0), t,
        be32 (input.getD 8 0) (input.getD 9 0) (input.getD 10 0) (input.getD 11 0),
        input⟩, st)

/-- Source: bzrtp_packetCheck (packetParser.c). Length bounds, preamble and
magic cookie, the out-of-order drop for non-fragmented packets, the CRC over
everything but the trailing four bytes, then the single-slot fragment
reassembly, and finally the message-header checks on the complete packet. The
CRC32 primitive (cryptoUtils.c, not among the sources) is the crc parameter,
reduced modulo 2^32 as its C uint32_t return type is. On reassembly completion
the fragment list is freed and the slot's message id reset to zero, and the
reassembled buffer is processed in place of the input. -/
def bzrtp_packetCheck (crc : Bytes → Nat) (st : CodecState) (input : Bytes) :
    CheckOutcome × CodecState :=
  if input.length < 28 ∨ 3072 < input.length then (CheckOutcome.err Err.invalidPacket, st)
  else if ¬(input.getD 0 0 = 16 ∨ input.getD 0 0 = 17) ∨ input.getD 1 0 ≠ 0
      ∨ input.getD 4 0 ≠ 90 ∨ input.getD 5 0 ≠ 82 ∨ input.getD 6 0 ≠ 84
      ∨ input.getD 7 0 ≠ 80 then
    (CheckOutcome.err Err.invalidPacket, st)
  else if input.getD 0 0 ≠ 17
      ∧ be16 (input.getD 2 0) (input.getD 3 0) ≤ st.peerSequenceNumber then
    (CheckOutcome.err Err.outOfOrder, st)
  else if crc (input.take (input.length - 4)) % 4294967296
      ≠ be32 (input.getD (input.length - 4) 0) (input.getD (input.length - 3) 0)
          (input.getD (input.length - 2) 0) (input.getD (input.length - 1) 0) then
    (CheckOutcome.err Err.invalidCRC, st)
  else if input.getD 0 0 = 17 then
    if fragMessageId input < st.frag.messageId then (CheckOutcome.err Err.outOfOrder, st)
    else
      let slot2 := slotAfter st input
      if sumFragLengths slot2.fragments = fragTotalLength input then
        packetCheckMessagePart (be16 (input.getD 2 0) (input.getD 3 0)) slot2.buffer
          ⟨st.peerSequenceNumber, ⟨0, slot2.messageLength, slot2.buffer, []⟩⟩
      else
        (CheckOutcome.err Err.packetFragmentInfo, ⟨st.peerSequenceNumber, slot2⟩)
  else
    packetCheckMessagePart (be16 (input.getD 2 0) (input.getD 3 0)) input st

theorem insertFragInfo_not_inserted_eq (l : List (Nat × Nat)) (off len : Nat)
    (h : (insertFragInfo l off len).inserted = false) :
    (insertFragInfo l off len).fragments = l ∧ ∀ p ∈ l, p.1 < off := by
  induction l with
  | nil => simp [insertFragInfo]
  | cons hd tl ih =>
      obtain ⟨o, a⟩ := hd
      by_cases h1 : off < o
      · simp [insertFragInfo, h1] at h
      · by_cases h2 : off = o
        · simp [insertFragInfo, h1, h2] at h
        · simp only [insertFragInfo, if_neg h1, if_neg h2] at h ⊢
          obtain ⟨hf, hp⟩ := ih h
          refine ⟨by simp [hf], ?_⟩
          intro p hp2
          rw [List.mem_cons] at hp2
          rcases hp2 with hp2 | hp2
          · rw [hp2]
            simp
            omega
          · exact hp p hp2

theorem insertFragInfo_subset (l : List (Nat × Nat)) (off len : Nat) :
    ∀ p ∈ (insertFragInfo l off len).fragments, p ∈ l ∨ p = (off, len) := by
  induction l with
  | nil => simp [insertFragInfo]
  | cons hd tl ih =>
      obtain ⟨o, a⟩ := hd
      by_cases h1 : off < o
      · simp only [insertFragInfo, if_pos h1]
        intro p hp
        simp only [List.mem_cons] at hp
        rcases hp with hp | hp | hp
        · exact Or.inr hp
        · exact Or.inl (by rw [List.mem_cons]; exact Or.inl hp)
        · exact Or.inl (by rw [List.mem_cons]; exact Or.inr hp)
      · by_cases h2 : off = o
        · simp only [insertFragInfo, if_neg h1, if_pos h2]
          intro p hp
          exact Or.inl hp
        · simp only [insertFragInfo, if_neg h1, if_neg h2]
          intro p hp
          simp only [List.mem_cons] at hp
          rcases hp with hp | hp
          · exact Or.inl (by rw [List.mem_cons]; exact Or.inl hp)
          · rcases ih p hp with hh | hh
            · exact Or.inl (by rw [List.mem_cons]; exact Or.inr hh)
            · exact Or.inr hh

theorem insertFragInfo_inserted_spec (l : List (Nat × Nat)) (off len : Nat)
    (hs : l.Pairwise (fun a b => a.1 < b.1))
    (h : (insertFragInfo l off len).inserted = true) :
    (insertFragInfo l off len).fragments.Pairwise (fun a b => a.1 < b.1)
    ∧ ∃ a, (off, a) ∈ (insertFragInfo l off len).fragments := by
  induction l with
  | nil => simp [insertFragInfo] at h
  | cons hd tl ih =>
      obtain ⟨o, a⟩ := hd
      rw [List.pairwise_cons] at hs
      obtain ⟨ho, htl⟩ := hs
      by_cases h1 : off < o
      · simp only [insertFragInfo, if_pos h1]
        constructor
        · rw [List.pairwise_cons]
          constructor
          · intro p hp
            simp only [List.mem_cons] at hp
            rcases hp with hp | hp
            · simp [hp]
              exact h1
            · have := ho p hp
              simp
              omega
          · rw [List.pairwise_cons]
            exact ⟨ho, htl⟩
        · exact ⟨len, by simp⟩
      · by_cases h2 : off = o
        · simp only [insertFragInfo, if_neg h1, if_pos h2]
          constructor
          · rw [List.pairwise_cons]
            exact ⟨ho, htl⟩
          · exact ⟨a, by simp [h2]⟩
        · simp only [insertFragInfo, if_neg h1, if_neg h2] at h ⊢
          obtain ⟨hp1, hp2⟩ := ih htl h
          constructor
          · rw [List.pairwise_cons]
            refine ⟨?_, hp1⟩
            intro p hp
            rcases insertFragInfo_subset tl off len p hp with hh | hh
            · exact ho p hh
            · simp [hh]
              omega
          · obtain ⟨x, hx⟩ := hp2
            exact ⟨x, by simp [hx]⟩

theorem mergeFragment_sorted_mem (slot : FragSlot) (off len : Nat) (data : Bytes)
    (hs : slot.fragments.Pairwise (fun a b => a.1 < b.1)) :
    (mergeFragment slot off len data).fragments.Pairwise (fun a b => a.1 < b.1)
    ∧ ∃ a, (off, a) ∈ (mergeFragment slot off len data).fragments := by
  unfold mergeFragment
  rcases hb : (insertFragInfo slot.fragments off len).inserted with _ | _
  · obtain ⟨hf, hp⟩ := insertFragInfo_not_inserted_eq _ _ _ hb
    simp only [hb, if_neg (by simp : ¬(false = true))]
    constructor
    · rw [List.pairwise_append]
      refine ⟨hs, by simp, ?_⟩
      intro p hp2 q hq
      rcases hq with hq
      simp at hq
      rw [hq]
      exact hp p hp2
    · exact ⟨len, by simp⟩
  · obtain ⟨h1, h2⟩ := insertFragInfo_inserted_spec _ _ _ hs hb
    simp only [hb, if_pos rfl]
    exact ⟨h1, h2⟩

/-- Claim C7 (confirmed). On a packet passing the length/preamble/cookie/CRC
checks: a non-fragmented packet whose sequence number is at most the last
accepted one is dropped as OutOfOrder with the state untouched (fragments skip
this test); a fragment carrying a message id lower than the stored one is
rejected as OutOfOrder; with a message id at least the stored one the fragment
is merged (a strictly higher id first discarding the previous partial assembly
and starting a fresh buffer whose only recorded fragment is the arriving one),
the merged fragment list stays sorted by offset and records the arriving
offset whatever the arrival order, and the reassembled packet is handed to the
message-header/parser stage exactly when the recorded fragment lengths sum to
the announced total message length, a shortfall returning the informational
fragment code with the updated slot kept. -/
theorem packet_check_sequence_and_fragments
    (crc : Bytes → Nat) (st : CodecState) (input : Bytes)
    (hlen1 : 28 ≤ input.length) (hlen2 : input.length ≤ 3072)
    (hb1 : input.getD 1 0 = 0) (hb4 : input.getD 4 0 = 90) (hb5 : input.getD 5 0 = 82)
    (hb6 : input.getD 6 0 = 84) (hb7 : input.getD 7 0 = 80)
    (hcrc : crc (input.take (input.length - 4)) % 4294967296
      = be32 (input.getD (input.length - 4) 0) (input.getD (input.length - 3) 0)
          (input.getD (input.length - 2) 0) (input.getD (input.length - 1) 0)) :
    (input.getD 0 0 = 16 →
      be16 (input.getD 2 0) (input.getD 3 0) ≤ st.peerSequenceNumber →
      bzrtp_packetCheck crc st input = (CheckOutcome.err Err.outOfOrder, st))
    ∧ (input.getD 0 0 = 17 → fragMessageId input < st.frag.messageId →
      bzrtp_packetCheck crc st input = (CheckOutcome.err Err.outOfOrder, st))
    ∧ (input.getD 0 0 = 17 → st.frag.messageId ≤ fragMessageId input →
      (sumFragLengths (slotAfter st input).fragments ≠ fragTotalLength input →
        bzrtp_packetCheck crc st input
          = (CheckOutcome.err Err.packetFragmentInfo,
              ⟨st.peerSequenceNumber, slotAfter st input⟩))
      ∧ (sumFragLengths (slotAfter st input).fragments = fragTotalLength input →
        bzrtp_packetCheck crc st input
          = packetCheckMessagePart (be16 (input.getD 2 0) (input.getD 3 0))
              (slotAfter st input).buffer
              ⟨st.peerSequenceNumber, ⟨0, (slotAfter st input).messageLength,
                (slotAfter st input).buffer, []⟩⟩))
    ∧ (input.getD 0 0 = 17 → st.frag.messageId < fragMessageId input →
      (slotAfter st input).fragments = [(fragOffset input, fragLength input)]
      ∧ (slotAfter st input).messageId = fragMessageId input)
    ∧ (∀ (slot : FragSlot) (off len : Nat) (data : Bytes),
      slot.fragments.Pairwise (fun a b => a.1 < b.1) →
      (mergeFragment slot off len data).fragments.Pairwise (fun a b => a.1 < b.1)
      ∧ ∃ a, (off, a) ∈ (mergeFragment slot off len data).fragments) := by
  have hc1 : ¬(input.length < 28 ∨ 3072 < input.length) := by omega
  refine ⟨?_, ?_, ?_, ?_, ?_⟩
  · intro h16 hseq
    unfold bzrtp_packetCheck
    rw [if_neg hc1, if_neg (by omega), if_pos (by exact ⟨by omega, hseq⟩)]
  · intro h17 hlt
    unfold bzrtp_packetCheck
    rw [if_neg hc1, if_neg (by omega),
      if_neg (by omega), if_neg (by omega), if_pos h17, if_pos hlt]
  · intro h17 hle
    have hnlt : ¬(fragMessageId input < st.frag.messageId) := by omega
    constructor
    · intro hneq
      unfold bzrtp_packetCheck
      rw [if_neg hc1, if_neg (by omega),
        if_neg (by omega), if_neg (by omega), if_pos h17, if_neg hnlt]
      simp only []
      rw [if_neg hneq]
    · intro heq
      unfold bzrtp_packetCheck
      rw [if_neg hc1, if_neg (by omega),
        if_neg (by omega), if_neg (by omega), if_pos h17, if_neg hnlt]
      simp only []
      rw [if_pos heq]
  · intro h17 hlt
    unfold slotAfter
    rw [if_pos hlt]
    unfold freshSlot mergeFragment insertFragInfo
    simp
  · intro slot off len data hs
    exact mergeFragment_sorted_mem slot off len data hs

/-- Witness for C7 at concrete inputs: a valid non-fragmented packet with a
stale sequence number is dropped OutOfOrder, and a first valid fragment (28
bytes: 20-byte fragmented header, 4 payload bytes announced as 1 of 2 words,
4 CRC bytes) on an empty slot is kept pending with its offset recorded. -/
theorem packet_check_sequence_and_fragments_witness :
    bzrtp_packetCheck (fun _ => 0)
      ⟨9, ⟨0, 0, [], []⟩⟩
      ([16, 0, 0, 5, 90, 82, 84, 80, 0, 0, 0, 1]
        ++ [80, 90, 0, 3, 72, 101, 108, 108, 111, 32, 32, 32]
        ++ [0, 0, 0, 0])
      = (CheckOutcome.err Err.outOfOrder, ⟨9, ⟨0, 0, [], []⟩⟩)
    ∧ bzrtp_packetCheck (fun _ => 0)
      ⟨9, ⟨1, 0, [], []⟩⟩
      ([17, 0, 0, 5, 90, 82, 84, 80, 0, 0, 0, 1]
        ++ [0, 2, 0, 2, 0, 0, 0, 1]
        ++ [80, 90, 0, 2]
        ++ [0, 0, 0, 0])
      = (CheckOutcome.err Err.packetFragmentInfo,
          ⟨9, slotAfter ⟨9, ⟨1, 0, [], []⟩⟩
            ([17, 0, 0, 5, 90, 82, 84, 80, 0, 0, 0, 1]
              ++ [0, 2, 0, 2, 0, 0, 0, 1]
              ++ [80, 90, 0, 2]
              ++ [0, 0, 0, 0])⟩) := by
  constructor
  · have h := packet_check_sequence_and_fragments (fun _ => 0)
      ⟨9, ⟨0, 0, [], []⟩⟩
      ([16, 0, 0, 5, 90, 82, 84, 80, 0, 0, 0, 1]
        ++ [80, 90, 0, 3, 72, 101, 108, 108, 111, 32, 32, 32]
        ++ [0, 0, 0, 0])
      (by decide) (by decide) (by decide) (by decide) (by decide) (by decide)
      (by decide) (by decide)
    exact h.1 (by decide) (by decide)
  · have h := packet_check_sequence_and_fragments (fun _ => 0)
      ⟨9, ⟨1, 0, [], []⟩⟩
      ([17, 0, 0, 5, 90, 82, 84, 80, 0, 0, 0, 1]
        ++ [0, 2, 0, 2, 0, 0, 0, 1]
        ++ [80, 90, 0, 2]
        ++ [0, 0, 0, 0])
      (by decide) (by decide) (by decide) (by decide) (by decide) (by decide)
      (by decide) (by decide)
    exact (h.2.2.1 (by decide) (by decide)).1 (by decide)

end Bzrtp
